import Mathlib

/-!
Verification of the behavior-execution engine (types.hpp, element.hpp,
executor.hpp, main.cpp).

The C++ code is shallowly embedded: machine doubles become exact rationals,
`std::chrono` timestamps become integer milliseconds, and the stateful
classes become explicit state-passing functions.  Observable side effects
that the specification talks about (child initialize/tick/finalize calls,
ReactionService.activate/release calls, the data-initialization hook) are
returned as explicit event lists so that theorems can speak about them.
-/

namespace Behavior

/-! ## Data model (types.hpp) -/

/-- Outcome::Return (types.hpp line 25). -/
inductive Return
  | Running
  | Success
  | Fail
deriving DecidableEq

/-- ActuateCmd (types.hpp lines 17-19); the double velocity is embedded as ℚ. -/
structure ActuateCmd where
  velocity : ℚ
deriving DecidableEq

/-- Outcome (types.hpp lines 24-30).  A default-constructed Outcome has
value Fail and a value-initialized (zero velocity) ActuateCmd. -/
structure Outcome where
  value : Return
  actuate : ActuateCmd
deriving DecidableEq

/-- The default-constructed `Outcome()`: `{Return::Fail, ActuateCmd{0}}`. -/
def Outcome.default0 : Outcome := ⟨Return.Fail, ⟨0⟩⟩

/-- SenseInfo (types.hpp lines 8-14).  `ts` is a steady-clock instant in
milliseconds, embedded as ℤ. -/
structure SenseInfo where
  measured_velocity : ℚ
  measured_x : ℚ
  is_flinching : Bool
  is_knee_jerking : Bool
  ts : ℤ
deriving DecidableEq

/-- ElementMeta (types.hpp lines 33-35). -/
structure ElementMeta where
  name : String

/-- ReactionDef (types.hpp lines 55-59): REQUIRED = -1, DISABLED = 0,
ENABLED = 1. -/
inductive ReactionDef
  | required
  | disabled
  | enabled
deriving DecidableEq

/-- The numeric flag value contributed by a reaction definition in
`get_reaction_defs` (element.hpp line 99).  `required` is rejected by the
static_asserts in `MotionElement::initialize` (element.hpp lines 54-59), so
it never reaches `get_reaction_defs`; `MotionSpec` below carries those
compile-time checks as invariants. -/
def ReactionDef.flagVal : ReactionDef → ℕ
  | .disabled => 0
  | .enabled => 1
  | .required => 0

/-! ## The MotionElement leaf adapter (element.hpp lines 25-104)

A concrete leaf (the CRTP `Derived` class) is a `MotionSpec`: its NAME
trait, its two reaction traits, its per-leaf data, and its statically
overridable methods.  The static_asserts of `MotionElement::initialize`
are carried as proof fields: a leaf that compiles satisfies them. -/

structure MotionSpec (δ : Type) where
  name : String
  kneeJerkReaction : ReactionDef
  flinchReaction : ReactionDef
  /-- static_assert (element.hpp lines 57-59). -/
  kneeJerkSpecified : kneeJerkReaction ≠ ReactionDef.required
  /-- static_assert (element.hpp lines 54-56). -/
  flinchSpecified : flinchReaction ≠ ReactionDef.required
  /-- `motion_element_data_initialize` override (default: no-op, line 40). -/
  dataInit : δ → SenseInfo → δ := fun d _ => d
  /-- `motion_element_tick` (required in Derived). -/
  motionTick : δ → SenseInfo → δ × Outcome
  /-- `motion_element_finalize` override (default: no-op, line 39). -/
  motionFinalize : δ → δ := id

/-- `get_reaction_defs` (element.hpp lines 98-100):
`KNEE_JERK_REACTION << 0 | FLINCH_REACTION << 1`. -/
def MotionSpec.reactionDefs {δ : Type} (sp : MotionSpec δ) : ℕ :=
  sp.kneeJerkReaction.flagVal <<< 0 ||| sp.flinchReaction.flagVal <<< 1

/-- The mutable state of a MotionElement: `m_first_tick` (element.hpp
line 103) plus the Derived object's own data. -/
structure MotionState (δ : Type) where
  firstTick : Bool
  d : δ
deriving DecidableEq

/-- Observable calls a MotionElement makes to its services and hooks. -/
inductive MotionEvent
  | activateCall (mask : ℕ)
  | releaseCall (mask : ℕ)
  | dataInitCall (s : SenseInfo)
deriving DecidableEq

/-- `MotionElement::initialize` (element.hpp lines 43-75): reset
`m_first_tick`, call `ReactionService.activate(get_reaction_defs())`, then
the statically overridable initialization (default returns
`ElementMeta{NAME}`, line 36-38). -/
def motionInit {δ : Type} (sp : MotionSpec δ) (st : MotionState δ) :
    MotionState δ × ElementMeta × List MotionEvent :=
  (⟨true, st.d⟩, ⟨sp.name⟩, [MotionEvent.activateCall sp.reactionDefs])

/-- `MotionElement::tick` (element.hpp lines 77-84): on the first tick,
invoke `motion_element_data_initialize` with the observed SenseInfo before
delegating to `motion_element_tick`. -/
def motionTick {δ : Type} (sp : MotionSpec δ) (st : MotionState δ) (s : SenseInfo) :
    MotionState δ × Outcome × List MotionEvent :=
  if st.firstTick then
    let d1 := sp.dataInit st.d s
    let r := sp.motionTick d1 s
    (⟨false, r.1⟩, r.2, [MotionEvent.dataInitCall s])
  else
    let r := sp.motionTick st.d s
    (⟨st.firstTick, r.1⟩, r.2, [])

/-- `MotionElement::finalize` (element.hpp lines 86-92): derived
finalization, then `ReactionService.release(get_reaction_defs())`. -/
def motionFin {δ : Type} (sp : MotionSpec δ) (st : MotionState δ) :
    MotionState δ × List MotionEvent :=
  (⟨st.firstTick, sp.motionFinalize st.d⟩, [MotionEvent.releaseCall sp.reactionDefs])

/-- Tick a MotionElement through a list of SenseInfo inputs, collecting the
outcome and the events of each tick. -/
def motionRun {δ : Type} (sp : MotionSpec δ) :
    MotionState δ → List SenseInfo → MotionState δ × List (Outcome × List MotionEvent)
  | st, [] => (st, [])
  | st, s :: ss =>
    let r := motionTick sp st s
    let rest := motionRun sp r.1 ss
    (rest.1, (r.2.1, r.2.2) :: rest.2)

/-- Run several full initialize / tick* / finalize cycles on the same
MotionElement object, returning the events of each cycle. -/
def motionCycles {δ : Type} (sp : MotionSpec δ) :
    MotionState δ → List (List SenseInfo) → MotionState δ × List (List MotionEvent)
  | st, [] => (st, [])
  | st, ss :: more =>
    let i := motionInit sp st
    let r := motionRun sp i.1 ss
    let f := motionFin sp r.1
    let rest := motionCycles sp f.1 more
    (rest.1, (i.2.2 ++ (r.2.map (fun pr => pr.2)).flatten ++ f.2) :: rest.2)

/-! ## BehaviorElement children of a SequenceElement

A child, as the SequenceElement sees it through the BehaviorElement
interface (element.hpp lines 11-16): `initialize` mutates the child's
state and returns its ElementMeta, `tick` mutates state and returns an
Outcome, `finalize` mutates state. -/

structure Child (σ : Type) where
  init : σ → σ × ElementMeta
  tick : σ → SenseInfo → σ × Outcome
  fin : σ → σ

/-- A trivial child, used only as the `getD` fallback in statements. -/
def Child.dummy {σ : Type} : Child σ :=
  { init := fun d => (d, ⟨""⟩)
    tick := fun d _ => (d, Outcome.default0)
    fin := id }

/-- Tick a single child through a list of inputs, collecting outcomes. -/
def childRun {σ : Type} (c : Child σ) : σ → List SenseInfo → σ × List Outcome
  | d, [] => (d, [])
  | d, s :: ss =>
    let r := c.tick d s
    let rest := childRun c r.1 ss
    (rest.1, r.2 :: rest.2)

/-- The outcome of a child's j-th tick (0-based) when ticked from state `d`
through inputs `ss`. -/
def outAt {σ : Type} (c : Child σ) (d : σ) (ss : List SenseInfo) (j : ℕ) : Outcome :=
  (childRun c d ss).2.getD j Outcome.default0

/-! ## SequenceElement (element.hpp lines 111-179) -/

/-- Lifecycle calls the SequenceElement makes on child number `i`. -/
inductive SeqEvent
  | initE (i : ℕ)
  | tickE (i : ℕ)
  | finE (i : ℕ)
deriving DecidableEq

/-- The child index an event refers to. -/
def SeqEvent.idx : SeqEvent → ℕ
  | .initE i => i
  | .tickE i => i
  | .finE i => i

/-- Mutable state of a SequenceElement: each child's state (the children
are held by reference, their state lives with them), `m_iter` as the index
of the current child, and `m_new_element`. -/
structure SeqState (σ : Type) where
  childStates : ℕ → σ
  iter : ℕ
  newElement : Bool

/-- Point update of a state map. -/
def updF {σ : Type} (f : ℕ → σ) (i : ℕ) (x : σ) : ℕ → σ :=
  fun j => if j = i then x else f j

/-- The outcome the sequence reports after the current child returned the
terminal outcome `cur` and the iterator was advanced to `nextIter`
(element.hpp lines 145-158): short-circuit a Fail, mask a non-final
Success as Running carrying the child's actuate command, forward the last
child's outcome unchanged. -/
def forwardOut (n nextIter : ℕ) (cur : Outcome) : Outcome :=
  if nextIter < n then
    if cur.value = Return.Fail then cur
    else ⟨Return.Running, cur.actuate⟩
  else cur

/-- `SequenceElement::initialize` (element.hpp lines 117-122). -/
def seqInit {σ : Type} (st : SeqState σ) : SeqState σ × ElementMeta :=
  (⟨st.childStates, 0, true⟩, ⟨"Sequence"⟩)

/-- `SequenceElement::tick` (element.hpp lines 124-169).  If the iterator
is past the end, return Fail with a default ActuateCmd (lines 163-166).
Otherwise lazily initialize the pending child (lines 129-133), tick it
(lines 135-136); on a terminal child outcome finalize the child, advance
the iterator and compute the forwarded outcome (lines 138-158); on Running
forward the child's outcome unchanged (lines 160-162). -/
def seqTick {σ : Type} (cs : List (Child σ)) (st : SeqState σ) (s : SenseInfo) :
    SeqState σ × Outcome × List SeqEvent :=
  if h : st.iter < cs.length then
    let c := cs.get ⟨st.iter, h⟩
    let p :=
      if st.newElement then
        (updF st.childStates st.iter (c.init (st.childStates st.iter)).1,
         [SeqEvent.initE st.iter])
      else (st.childStates, [])
    let r := c.tick (p.1 st.iter) s
    if r.2.value ≠ Return.Running then
      (⟨updF p.1 st.iter (c.fin r.1), st.iter + 1, true⟩,
       forwardOut cs.length (st.iter + 1) r.2,
       p.2 ++ [SeqEvent.tickE st.iter, SeqEvent.finE st.iter])
    else
      (⟨updF p.1 st.iter r.1, st.iter, false⟩, r.2,
       p.2 ++ [SeqEvent.tickE st.iter])
  else
    (st, ⟨Return.Fail, ⟨0⟩⟩, [])

/-- Tick a SequenceElement through a list of inputs, collecting each
tick's outcome and events. -/
def seqRun {σ : Type} (cs : List (Child σ)) :
    SeqState σ → List SenseInfo → SeqState σ × List (Outcome × List SeqEvent)
  | st, [] => (st, [])
  | st, s :: ss =>
    let r := seqTick cs st s
    let rest := seqRun cs r.1 ss
    (rest.1, (r.2.1, r.2.2) :: rest.2)

/-- Outcome of tick number `t` in a sequence trace. -/
def outAtT (tr : List (Outcome × List SeqEvent)) (t : ℕ) : Outcome :=
  (tr.getD t (Outcome.default0, [])).1

/-- Events of tick number `t` in a sequence trace. -/
def evsAtT (tr : List (Outcome × List SeqEvent)) (t : ℕ) : List SeqEvent :=
  (tr.getD t (Outcome.default0, [])).2

/-! ## Executor (executor.hpp) -/

/-- A BehaviorElement as the executor drives it.  `tickFn` also reports
the observable events of the tick (event type `ε`). -/
structure BElem (τ ε : Type) where
  initFn : τ → τ × ElementMeta
  tickFn : τ → SenseInfo → τ × Outcome × List ε
  finFn : τ → τ

/-- Executor loop events: one `tickEv` per loop iteration (the SenseInfo
fed to the tick, the Outcome, the element's events) and one `finEv` for
the finalize call after the loop. -/
inductive ExecEvent (ε : Type)
  | tickEv (sense : SenseInfo) (out : Outcome) (evs : List ε)
  | finEv
deriving DecidableEq

/-- One iteration of `Executor::run`'s loop body (executor.hpp lines
18-27): call `tick`, then apply the returned actuate command to the
simulated model — `measured_x += velocity * period.count() / 1000.0` with
`period = 100 ms`, `measured_velocity = velocity` — and let the next
iteration's timestamp be one fixed period later. -/
def execStep {τ ε : Type} (be : BElem τ ε) (st : τ) (sense : SenseInfo) :
    τ × SenseInfo × Outcome × List ε :=
  let r := be.tickFn st sense
  (r.1,
   ⟨r.2.1.actuate.velocity,
    sense.measured_x + r.2.1.actuate.velocity * 100 / 1000,
    sense.is_flinching, sense.is_knee_jerking, sense.ts + 100⟩,
   r.2.1, r.2.2)

/-- The do/while loop of `Executor::run` (executor.hpp lines 18-28) with
explicit fuel, followed by the finalize call (line 31): repeat while the
outcome is Running; on the first terminal outcome call `finalize` and
return.  Returns `none` if the fuel runs out before a terminal outcome. -/
def execLoop {τ ε : Type} (be : BElem τ ε) :
    ℕ → τ → SenseInfo → List (ExecEvent ε) × Option (τ × SenseInfo × Outcome)
  | 0, _, _ => ([], none)
  | fuel + 1, st, sense =>
    let r := execStep be st sense
    if r.2.2.1.value = Return.Running then
      let rest := execLoop be fuel r.1 r.2.1
      (ExecEvent.tickEv sense r.2.2.1 r.2.2.2 :: rest.1, rest.2)
    else
      ([ExecEvent.tickEv sense r.2.2.1 r.2.2.2, ExecEvent.finEv],
       some (be.finFn r.1, r.2.1, r.2.2.1))

/-- `Executor::run` (executor.hpp lines 6-33): initialize the element,
then drive the loop. -/
def execRun {τ ε : Type} (be : BElem τ ε) (fuel : ℕ) (st : τ) (sense : SenseInfo) :
    List (ExecEvent ε) × Option (τ × SenseInfo × Outcome) :=
  execLoop be fuel (be.initFn st).1 sense

/-- The outcomes of the tick events of an executor trace, in order. -/
def tickOuts {ε : Type} (evs : List (ExecEvent ε)) : List Outcome :=
  evs.filterMap fun e =>
    match e with
    | .tickEv _ o _ => some o
    | .finEv => none

/-- The SenseInfo inputs of the tick events of an executor trace. -/
def tickSenses {ε : Type} (evs : List (ExecEvent ε)) : List SenseInfo :=
  evs.filterMap fun e =>
    match e with
    | .tickEv s _ _ => some s
    | .finEv => none

/-- Whether an executor event is the finalize event. -/
def ExecEvent.isFin {ε : Type} : ExecEvent ε → Bool
  | .finEv => true
  | _ => false

/-- The element events of each tick of an executor trace, in order. -/
def tickEvts {ε : Type} (evs : List (ExecEvent ε)) : List (List ε) :=
  evs.filterMap fun e =>
    match e with
    | .tickEv _ _ l => some l
    | .finEv => none

/-! ## Concrete leaves (main.cpp) -/

/-- The machine epsilon of a C++ double (`std::numeric_limits` epsilon),
2⁻⁵², used by Stop (main.cpp line 16). -/
def EPS : ℚ := 1 / 2 ^ 52

/-- `Stop::motion_element_tick` (main.cpp lines 13-23): Success once the
measured velocity's magnitude is within machine epsilon, otherwise
Running; the actuate velocity is always 0. -/
def stopTick (me : Unit) (s : SenseInfo) : Unit × Outcome :=
  let is_zero := EPS ≥ |s.measured_velocity|
  (me, ⟨if is_zero then Return.Success else Return.Running, ⟨0⟩⟩)

/-- The Stop leaf (main.cpp lines 7-24): both reactions ENABLED. -/
def stopSpec : MotionSpec Unit :=
  { name := "Stop"
    kneeJerkReaction := ReactionDef.enabled
    flinchReaction := ReactionDef.enabled
    kneeJerkSpecified := by decide
    flinchSpecified := by decide
    motionTick := stopTick }

/-- The per-object data of WalkToPosition (main.cpp lines 88-90). -/
structure WalkData where
  goal_x : ℚ
  init_ts : ℤ
deriving DecidableEq

/-- `WalkToPosition::motion_element_data_initialize` (main.cpp lines
40-43): latch the first observed timestamp. -/
def walkDataInit (me : WalkData) (s : SenseInfo) : WalkData :=
  ⟨me.goal_x, s.ts⟩

/-- `WalkToPosition::motion_element_tick` (main.cpp lines 46-86):
MY_VELO = 1 m/s, GOAL_THRESHOLD = 0.1 m, TIMEOUT = 60000 ms.  The actuate
velocity is ±MY_VELO by the sign of the remaining distance; within the
goal threshold the outcome is Success; past the timeout it is Fail; under
an active knee-jerk reflex the velocity is set to 0 while still Running. -/
def walkTick (me : WalkData) (s : SenseInfo) : WalkData × Outcome :=
  let dist_x : ℚ := me.goal_x - s.measured_x
  let o : Outcome := ⟨Return.Running, ⟨if dist_x ≥ 0 then 1 else -1⟩⟩
  let o' :=
    if |dist_x| < 1 / 10 then ⟨Return.Success, o.actuate⟩
    else if s.ts - me.init_ts > 60000 then ⟨Return.Fail, o.actuate⟩
    else if s.is_knee_jerking then ⟨o.value, ActuateCmd.mk 0⟩
    else o
  (me, o')

/-- The WalkToPosition leaf (main.cpp lines 28-91): knee-jerk ENABLED,
flinch DISABLED. -/
def walkSpec : MotionSpec WalkData :=
  { name := "WalkToPosition"
    kneeJerkReaction := ReactionDef.enabled
    flinchReaction := ReactionDef.disabled
    kneeJerkSpecified := by decide
    flinchSpecified := by decide
    dataInit := walkDataInit
    motionTick := walkTick }

/-! ## Wiring leaves into a sequence (main.cpp lines 93-102) -/

/-- A MotionElement viewed through the BehaviorElement interface. -/
def motionChild {δ : Type} (sp : MotionSpec δ) : Child (MotionState δ) :=
  { init := fun st => ((motionInit sp st).1, (motionInit sp st).2.1)
    tick := fun st s => ((motionTick sp st s).1, (motionTick sp st s).2.1)
    fin := fun st => (motionFin sp st).1 }

/-- Lift a child to act on the left component of a product state. -/
def childL {α β : Type} (c : Child α) : Child (α × β) :=
  { init := fun st => (((c.init st.1).1, st.2), (c.init st.1).2)
    tick := fun st s => (((c.tick st.1 s).1, st.2), (c.tick st.1 s).2)
    fin := fun st => ((c.fin st.1), st.2) }

/-- Lift a child to act on the right component of a product state. -/
def childR {α β : Type} (c : Child β) : Child (α × β) :=
  { init := fun st => ((st.1, (c.init st.2).1), (c.init st.2).2)
    tick := fun st s => ((st.1, (c.tick st.2 s).1), (c.tick st.2 s).2)
    fin := fun st => (st.1, (c.fin st.2)) }

/-- Combined state of the two leaves of main.cpp: the WalkToPosition
object and the Stop object. -/
abbrev ScenState : Type := MotionState WalkData × MotionState Unit

/-- The children of `sequence({std::ref(walk), std::ref(stop)})`
(main.cpp line 97).  Walk's goal (4) lives in the walk object's data. -/
def scenChildren : List (Child ScenState) :=
  [childL (motionChild walkSpec), childR (motionChild stopSpec)]

/-- The freshly constructed objects of main.cpp lines 95-96: walk with
goal 4 (`init_ts` value-initialized to 0), stop, both with
`m_first_tick = true`. -/
def scenState0 : ScenState := (⟨true, ⟨4, 0⟩⟩, ⟨true, ()⟩)

/-- The sequence of main.cpp viewed as the element the executor drives.
`SequenceElement::finalize` is a no-op (element.hpp line 171). -/
def scenBE : BElem (SeqState ScenState) SeqEvent :=
  { initFn := seqInit
    tickFn := fun st s => seqTick scenChildren st s
    finFn := id }

/-- The sequence object as constructed (element.hpp line 115: `m_iter`
starts at the first child, `m_new_element = true`). -/
def scenSeq0 : SeqState ScenState := ⟨fun _ => scenState0, 0, true⟩

/-- The executor's initial SenseInfo (executor.hpp lines 10-11):
value-initialized measurements and flags, starting timestamp 0. -/
def sense0 : SenseInfo := ⟨0, 0, false, false, 0⟩

/-- The full run of main.cpp under the embedded executor (100 fuel is
more than the 43 iterations the run needs). -/
def scenRun : List (ExecEvent SeqEvent) × Option (SeqState ScenState × SenseInfo × Outcome) :=
  execRun scenBE 100 scenSeq0 sense0

/-- List-backed mirror of `SeqState`: the same data with the child-state
map materialized as a list, so that states of a concrete run can be
compared by `decide`.  `seqTick_absL` proves it equivalent to `SeqState`
under the `absL` view. -/
structure SeqStateL (σ : Type) where
  childStatesL : List σ
  iterL : ℕ
  newElementL : Bool
deriving DecidableEq

/-- View a list-backed state as a `SeqState` (`d` is the value reported
for indexes beyond the list, which a well-formed run never touches). -/
def absL {σ : Type} (d : σ) (st : SeqStateL σ) : SeqState σ :=
  ⟨fun j => st.childStatesL.getD j d, st.iterL, st.newElementL⟩

/-- `SequenceElement::tick` over the list-backed state; mirrors `seqTick`
clause by clause. -/
def seqTickL {σ : Type} (d : σ) (cs : List (Child σ)) (st : SeqStateL σ) (s : SenseInfo) :
    SeqStateL σ × Outcome × List SeqEvent :=
  if h : st.iterL < cs.length then
    let c := cs.get ⟨st.iterL, h⟩
    let p :=
      if st.newElementL then
        (st.childStatesL.set st.iterL (c.init (st.childStatesL.getD st.iterL d)).1,
         [SeqEvent.initE st.iterL])
      else (st.childStatesL, [])
    let r := c.tick (p.1.getD st.iterL d) s
    if r.2.value ≠ Return.Running then
      (⟨p.1.set st.iterL (c.fin r.1), st.iterL + 1, true⟩,
       forwardOut cs.length (st.iterL + 1) r.2,
       p.2 ++ [SeqEvent.tickE st.iterL, SeqEvent.finE st.iterL])
    else
      (⟨p.1.set st.iterL r.1, st.iterL, false⟩, r.2,
       p.2 ++ [SeqEvent.tickE st.iterL])
  else
    (st, ⟨Return.Fail, ⟨0⟩⟩, [])

/-- The list-backed initial state of main.cpp's sequence. -/
def scenSeq0L : SeqStateL ScenState := ⟨[scenState0, scenState0], 0, true⟩

/-- The list-backed view of main.cpp's sequence as an executor element. -/
def scenBEL : BElem (SeqStateL ScenState) SeqEvent :=
  { initFn := fun st => (⟨st.childStatesL, 0, true⟩, ⟨"Sequence"⟩)
    tickFn := fun st s => seqTickL scenState0 scenChildren st s
    finFn := id }

/-- The run of main.cpp over the list-backed state. -/
def scenRunL : List (ExecEvent SeqEvent) × Option (SeqStateL ScenState × SenseInfo × Outcome) :=
  execRun scenBEL 100 scenSeq0L sense0

/-! ## Auxiliary definitions used by the theorems -/

/-- The SenseInfo arguments of the data-initialization hook calls in an
event list. -/
def dataInitsOf (evs : List MotionEvent) : List SenseInfo :=
  evs.filterMap fun e =>
    match e with
    | MotionEvent.dataInitCall s => some s
    | _ => none

/-- Ticks consumed by the children before child `i` starts: the sum of the
per-child tick budgets of the children before it. -/
def ticksBefore (ks : List ℕ) (i : ℕ) : ℕ := (ks.take i).sum

/-- The slice of the input stream that child `i` consumes. -/
def window (ks : List ℕ) (ws : List SenseInfo) (i : ℕ) : List SenseInfo :=
  (ws.drop (ticksBefore ks i)).take (ks.getD i 0)

/-- A child that, whenever (re-)initialized and then ticked, returns
Running on its first `k - 1` ticks and outcome value `v` on tick `k`
(so `v` is its first terminal outcome, on tick number `k`). -/
def TermAfter {σ : Type} (c : Child σ) (k : ℕ) (v : Return) : Prop :=
  1 ≤ k ∧ ∀ (d : σ) (ss : List SenseInfo), k ≤ ss.length →
    (∀ j, j + 1 < k → (outAt c ((c.init d).1) ss j).value = Return.Running) ∧
    (outAt c ((c.init d).1) ss (k - 1)).value = v

/-- A child that eventually Succeeds, after exactly `k` ticks. -/
def SucceedsAfter {σ : Type} (c : Child σ) (k : ℕ) : Prop :=
  TermAfter c k Return.Success

/-- A child that Fails, on its tick number `k`. -/
def FailsAfter {σ : Type} (c : Child σ) (k : ℕ) : Prop :=
  TermAfter c k Return.Fail

/-- A child that Succeeds on its very first tick (used in witnesses). -/
def succNow : Child Unit :=
  { init := fun _ => ((), ⟨"succNow"⟩)
    tick := fun _ _ => ((), ⟨Return.Success, ⟨7⟩⟩)
    fin := id }

/-- A child that Fails on its very first tick (used in witnesses). -/
def failNow : Child Unit :=
  { init := fun _ => ((), ⟨"failNow"⟩)
    tick := fun _ _ => ((), ⟨Return.Fail, ⟨9⟩⟩)
    fin := id }

/-- A trivial element that Succeeds on its first tick (used in the
executor witness). -/
def succBE : BElem Unit Unit :=
  { initFn := fun _ => ((), ⟨"succBE"⟩)
    tickFn := fun _ _ => ((), ⟨Return.Success, ⟨2⟩⟩, [])
    finFn := id }

/-- The explicit executor trace of main.cpp's run in the exact-arithmetic
embedding: 43 ticks then the finalize event. -/
def c8Trace : List (ExecEvent SeqEvent) :=
  [ExecEvent.tickEv ⟨0, 0, false, false, 0⟩ ⟨Return.Running, ⟨1⟩⟩ [SeqEvent.initE 0, SeqEvent.tickE 0],
   ExecEvent.tickEv ⟨1, 1/10, false, false, 100⟩ ⟨Return.Running, ⟨1⟩⟩ [SeqEvent.tickE 0],
   ExecEvent.tickEv ⟨1, 2/10, false, false, 200⟩ ⟨Return.Running, ⟨1⟩⟩ [SeqEvent.tickE 0],
   ExecEvent.tickEv ⟨1, 3/10, false, false, 300⟩ ⟨Return.Running, ⟨1⟩⟩ [SeqEvent.tickE 0],
   ExecEvent.tickEv ⟨1, 4/10, false, false, 400⟩ ⟨Return.Running, ⟨1⟩⟩ [SeqEvent.tickE 0],
   ExecEvent.tickEv ⟨1, 5/10, false, false, 500⟩ ⟨Return.Running, ⟨1⟩⟩ [SeqEvent.tickE 0],
   ExecEvent.tickEv ⟨1, 6/10, false, false, 600⟩ ⟨Return.Running, ⟨1⟩⟩ [SeqEvent.tickE 0],
   ExecEvent.tickEv ⟨1, 7/10, false, false, 700⟩ ⟨Return.Running, ⟨1⟩⟩ [SeqEvent.tickE 0],
   ExecEvent.tickEv ⟨1, 8/10, false, false, 800⟩ ⟨Return.Running, ⟨1⟩⟩ [SeqEvent.tickE 0],
   ExecEvent.tickEv ⟨1, 9/10, false, false, 900⟩ ⟨Return.Running, ⟨1⟩⟩ [SeqEvent.tickE 0],
   ExecEvent.tickEv ⟨1, 10/10, false, false, 1000⟩ ⟨Return.Running, ⟨1⟩⟩ [SeqEvent.tickE 0],
   ExecEvent.tickEv ⟨1, 11/10, false, false, 1100⟩ ⟨Return.Running, ⟨1⟩⟩ [SeqEvent.tickE 0],
   ExecEvent.tickEv ⟨1, 12/10, false, false, 1200⟩ ⟨Return.Running, ⟨1⟩⟩ [SeqEvent.tickE 0],
   ExecEvent.tickEv ⟨1, 13/10, false, false, 1300⟩ ⟨Return.Running, ⟨1⟩⟩ [SeqEvent.tickE 0],
   ExecEvent.tickEv ⟨1, 14/10, false, false, 1400⟩ ⟨Return.Running, ⟨1⟩⟩ [SeqEvent.tickE 0],
   ExecEvent.tickEv ⟨1, 15/10, false, false, 1500⟩ ⟨Return.Running, ⟨1⟩⟩ [SeqEvent.tickE 0],
   ExecEvent.tickEv ⟨1, 16/10, false, false, 1600⟩ ⟨Return.Running, ⟨1⟩⟩ [SeqEvent.tickE 0],
   ExecEvent.tickEv ⟨1, 17/10, false, false, 1700⟩ ⟨Return.Running, ⟨1⟩⟩ [SeqEvent.tickE 0],
   ExecEvent.tickEv ⟨1, 18/10, false, false, 1800⟩ ⟨Return.Running, ⟨1⟩⟩ [SeqEvent.tickE 0],
   ExecEvent.tickEv ⟨1, 19/10, false, false, 1900⟩ ⟨Return.Running, ⟨1⟩⟩ [SeqEvent.tickE 0],
   ExecEvent.tickEv ⟨1, 20/10, false, false, 2000⟩ ⟨Return.Running, ⟨1⟩⟩ [SeqEvent.tickE 0],
   ExecEvent.tickEv ⟨1, 21/10, false, false, 2100⟩ ⟨Return.Running, ⟨1⟩⟩ [SeqEvent.tickE 0],
   ExecEvent.tickEv ⟨1, 22/10, false, false, 2200⟩ ⟨Return.Running, ⟨1⟩⟩ [SeqEvent.tickE 0],
   ExecEvent.tickEv ⟨1, 23/10, false, false, 2300⟩ ⟨Return.Running, ⟨1⟩⟩ [SeqEvent.tickE 0],
   ExecEvent.tickEv ⟨1, 24/10, false, false, 2400⟩ ⟨Return.Running, ⟨1⟩⟩ [SeqEvent.tickE 0],
   ExecEvent.tickEv ⟨1, 25/10, false, false, 2500⟩ ⟨Return.Running, ⟨1⟩⟩ [SeqEvent.tickE 0],
   ExecEvent.tickEv ⟨1, 26/10, false, false, 2600⟩ ⟨Return.Running, ⟨1⟩⟩ [SeqEvent.tickE 0],
   ExecEvent.tickEv ⟨1, 27/10, false, false, 2700⟩ ⟨Return.Running, ⟨1⟩⟩ [SeqEvent.tickE 0],
   ExecEvent.tickEv ⟨1, 28/10, false, false, 2800⟩ ⟨Return.Running, ⟨1⟩⟩ [SeqEvent.tickE 0],
   ExecEvent.tickEv ⟨1, 29/10, false, false, 2900⟩ ⟨Return.Running, ⟨1⟩⟩ [SeqEvent.tickE 0],
   ExecEvent.tickEv ⟨1, 30/10, false, false, 3000⟩ ⟨Return.Running, ⟨1⟩⟩ [SeqEvent.tickE 0],
   ExecEvent.tickEv ⟨1, 31/10, false, false, 3100⟩ ⟨Return.Running, ⟨1⟩⟩ [SeqEvent.tickE 0],
   ExecEvent.tickEv ⟨1, 32/10, false, false, 3200⟩ ⟨Return.Running, ⟨1⟩⟩ [SeqEvent.tickE 0],
   ExecEvent.tickEv ⟨1, 33/10, false, false, 3300⟩ ⟨Return.Running, ⟨1⟩⟩ [SeqEvent.tickE 0],
   ExecEvent.tickEv ⟨1, 34/10, false, false, 3400⟩ ⟨Return.Running, ⟨1⟩⟩ [SeqEvent.tickE 0],
   ExecEvent.tickEv ⟨1, 35/10, false, false, 3500⟩ ⟨Return.Running, ⟨1⟩⟩ [SeqEvent.tickE 0],
   ExecEvent.tickEv ⟨1, 36/10, false, false, 3600⟩ ⟨Return.Running, ⟨1⟩⟩ [SeqEvent.tickE 0],
   ExecEvent.tickEv ⟨1, 37/10, false, false, 3700⟩ ⟨Return.Running, ⟨1⟩⟩ [SeqEvent.tickE 0],
   ExecEvent.tickEv ⟨1, 38/10, false, false, 3800⟩ ⟨Return.Running, ⟨1⟩⟩ [SeqEvent.tickE 0],
   ExecEvent.tickEv ⟨1, 39/10, false, false, 3900⟩ ⟨Return.Running, ⟨1⟩⟩ [SeqEvent.tickE 0],
   ExecEvent.tickEv ⟨1, 40/10, false, false, 4000⟩ ⟨Return.Running, ⟨1⟩⟩ [SeqEvent.tickE 0, SeqEvent.finE 0],
   ExecEvent.tickEv ⟨1, 41/10, false, false, 4100⟩ ⟨Return.Running, ⟨0⟩⟩ [SeqEvent.initE 1, SeqEvent.tickE 1],
   ExecEvent.tickEv ⟨0, 41/10, false, false, 4200⟩ ⟨Return.Success, ⟨0⟩⟩ [SeqEvent.tickE 1, SeqEvent.finE 1],
   ExecEvent.finEv]

/-! ## Theorems -/

/-- A flattened list of empty lists is empty. -/
lemma flatten_nils {α β : Type} (l : List α) :
    (l.map (fun _ => ([] : List β))).flatten = [] := by
  induction l with
  | nil => simp
  | cons a l ih => simp [ih]

/-- Once the first tick is past, later ticks never fire the
data-initialization hook again and `m_first_tick` stays false. -/
lemma motionRun_not_first {δ : Type} (sp : MotionSpec δ) (ss : List SenseInfo) :
    ∀ d : δ,
      (motionRun sp ⟨false, d⟩ ss).2.map (fun pr => dataInitsOf pr.2) =
        ss.map (fun _ => ([] : List SenseInfo)) ∧
      (motionRun sp ⟨false, d⟩ ss).1.firstTick = false := by
  induction ss with
  | nil => intro d; simp [motionRun]
  | cons s ss ih =>
    intro d
    simpa [motionRun, motionTick, dataInitsOf] using ih (sp.motionTick d s).1

/-- A freshly initialized MotionElement fires the data-initialization hook
exactly on its first tick, with that tick's SenseInfo. -/
lemma motionRun_first {δ : Type} (sp : MotionSpec δ) (d : δ) (s0 : SenseInfo)
    (rest : List SenseInfo) :
    (motionRun sp ⟨true, d⟩ (s0 :: rest)).2.map (fun pr => dataInitsOf pr.2) =
      [s0] :: rest.map (fun _ => ([] : List SenseInfo)) ∧
    (motionRun sp ⟨true, d⟩ (s0 :: rest)).1.firstTick = false := by
  simpa [motionRun, motionTick, dataInitsOf] using
    motionRun_not_first sp rest (sp.motionTick (sp.dataInit d s0) s0).1

/-- The data-initialization calls of one whole initialize/tick*/finalize
cycle are exactly one call with the cycle's first SenseInfo (none if the
cycle had no tick). -/
lemma motionCycles_dataInits {δ : Type} (sp : MotionSpec δ) (cycles : List (List SenseInfo)) :
    ∀ st : MotionState δ,
      (motionCycles sp st cycles).2.map dataInitsOf =
        cycles.map (fun ss =>
          match ss with
          | [] => []
          | s :: _ => [s]) := by
  induction cycles with
  | nil => intro st; simp [motionCycles]
  | cons ss more ih =>
    intro st
    match ss with
    | [] =>
      simpa [motionCycles, motionInit, motionFin, motionRun, dataInitsOf] using
        ih _
    | s0 :: rest =>
      have h2 : dataInitsOf
          (((motionRun sp ⟨true, st.d⟩ (s0 :: rest)).2.map (fun pr => pr.2)).flatten) = [s0] := by
        have h1 := (motionRun_first sp st.d s0 rest).1
        simp only [dataInitsOf] at h1 ⊢
        rw [List.filterMap_flatten, List.map_map]
        have hcomp : ((motionRun sp ⟨true, st.d⟩ (s0 :: rest)).2.map
            ((List.filterMap fun e =>
              match e with
              | MotionEvent.dataInitCall s => some s
              | _ => none) ∘ (fun pr => pr.2))) =
            [s0] :: rest.map (fun _ => ([] : List SenseInfo)) := h1
        rw [hcomp]
        rw [List.flatten_cons, flatten_nils]
        simp
      simp only [motionCycles, motionInit, motionFin, List.map_cons]
      have hhead : dataInitsOf ([MotionEvent.activateCall sp.reactionDefs] ++
          ((motionRun sp ⟨true, st.d⟩ (s0 :: rest)).2.map (fun pr => pr.2)).flatten ++
          [MotionEvent.releaseCall sp.reactionDefs]) = [s0] := by
        simp only [dataInitsOf] at h2 ⊢
        rw [List.filterMap_append, List.filterMap_append, h2]
        simp
      rw [hhead, ih _]

/-- C4: across any number of initialize/tick*/finalize cycles of a
MotionElement, the data-initialization hook fires exactly once per cycle
(never for a cycle with no tick), on the first tick of the cycle only,
with the first observed SenseInfo of the cycle, and before the per-tick
decision function (the first tick's outcome is the decision function
applied to the data-initialized state). -/
theorem data_init_once_per_cycle (δ : Type) (sp : MotionSpec δ)
    (st st' : MotionState δ) (cycles : List (List SenseInfo))
    (s0 : SenseInfo) (rest : List SenseInfo) :
    (motionCycles sp st cycles).2.map dataInitsOf =
      cycles.map (fun ss =>
        match ss with
        | [] => []
        | s :: _ => [s]) ∧
    (motionRun sp (motionInit sp st').1 (s0 :: rest)).2.map (fun pr => dataInitsOf pr.2) =
      [s0] :: rest.map (fun _ => ([] : List SenseInfo)) ∧
    ((motionRun sp (motionInit sp st').1 (s0 :: rest)).2.getD 0 (Outcome.default0, [])).1 =
      (sp.motionTick (sp.dataInit st'.d s0) s0).2 := by
  refine ⟨motionCycles_dataInits sp cycles st, ?_, ?_⟩
  · simpa [motionInit] using (motionRun_first sp st'.d s0 rest).1
  · simp [motionInit, motionRun, motionTick]

/-- Shape of any terminating run of `Executor::run`'s loop: at least one
tick; every tick outcome except the last is Running and the last is
terminal (the loop repeats exactly while Running); the element is
finalized exactly once, after the last tick; the SenseInfo stream starts
at the initial SenseInfo and advances by the simulated model —
`measured_x` by the commanded velocity times the 100 ms period,
`measured_velocity` to the commanded velocity, the timestamp by one
period. -/
lemma execLoop_shape {τ ε : Type} (be : BElem τ ε) (fuel : ℕ) :
    ∀ (st : τ) (sense : SenseInfo) (evs : List (ExecEvent ε))
      (r : τ × SenseInfo × Outcome),
      execLoop be fuel st sense = (evs, some r) →
      tickOuts evs ≠ [] ∧
      (∀ j oj, (tickOuts evs).get? j = some oj → j + 1 ≠ (tickOuts evs).length →
        oj.value = Return.Running) ∧
      (tickOuts evs).getLast? = some r.2.2 ∧
      r.2.2.value ≠ Return.Running ∧
      evs.countP ExecEvent.isFin = 1 ∧
      evs.getLast? = some ExecEvent.finEv ∧
      (tickSenses evs).get? 0 = some sense ∧
      (∀ j sj sj1 oj, (tickSenses evs).get? j = some sj →
        (tickSenses evs).get? (j + 1) = some sj1 →
        (tickOuts evs).get? j = some oj →
        sj1.measured_x = sj.measured_x + oj.actuate.velocity * (1 / 10) ∧
        sj1.measured_velocity = oj.actuate.velocity ∧
        sj1.ts = sj.ts + 100) := by
  induction fuel with
  | zero => intro st sense evs r h; simp [execLoop] at h
  | succ n ih =>
    intro st sense evs r h
    simp only [execLoop] at h
    by_cases hrun : (execStep be st sense).2.2.1.value = Return.Running
    · rw [if_pos hrun] at h
      rcases hL : execLoop be n (execStep be st sense).1 (execStep be st sense).2.1
        with ⟨evs', res⟩
      rw [hL] at h
      have hevs : ExecEvent.tickEv sense (execStep be st sense).2.2.1
          (execStep be st sense).2.2.2 :: evs' = evs := congrArg Prod.fst h
      have hres : res = some r := congrArg Prod.snd h
      subst hevs
      obtain ⟨hne, hruns, hlast, hterm, hcount, hlastev, hsense0, hrec⟩ :=
        ih (execStep be st sense).1 (execStep be st sense).2.1 evs' r
          (by rw [hL, hres])
      have hontail : tickOuts (ExecEvent.tickEv sense (execStep be st sense).2.2.1
          (execStep be st sense).2.2.2 :: evs') =
          (execStep be st sense).2.2.1 :: tickOuts evs' := by
        simp [tickOuts]
      have hstail : tickSenses (ExecEvent.tickEv sense (execStep be st sense).2.2.1
          (execStep be st sense).2.2.2 :: evs') = sense :: tickSenses evs' := by
        simp [tickSenses]
      have hevs'ne : evs' ≠ [] := by
        intro hc; rw [hc] at hlastev; simp at hlastev
      have houtne : tickOuts evs' ≠ [] := hne
      refine ⟨by simp [hontail], ?_, ?_, hterm, ?_, ?_, ?_, ?_⟩
      · intro j oj hj hjlen
        rw [hontail] at hj hjlen
        match j with
        | 0 =>
          rw [List.get?_cons_zero] at hj
          rw [← Option.some.inj hj]
          exact hrun
        | j' + 1 =>
          rw [List.get?_cons_succ] at hj
          exact hruns j' oj hj (by simpa using hjlen)
      · rw [hontail]
        rcases hot : tickOuts evs' with _ | ⟨o1, os⟩
        · exact absurd hot houtne
        · rw [List.getLast?_cons_cons, ← hot]
          exact hlast
      · rw [List.countP_cons]
        simp [ExecEvent.isFin, hcount]
      · rcases evs' with _ | ⟨e1, es⟩
        · exact absurd rfl hevs'ne
        · rw [List.getLast?_cons_cons]
          exact hlastev
      · rw [hstail]; simp
      · intro j sj sj1 oj hsj hsj1 hoj
        rw [hstail] at hsj hsj1
        rw [hontail] at hoj
        match j with
        | 0 =>
          rw [List.get?_cons_zero] at hsj hoj
          have hs1 : (tickSenses evs').get? 0 = some sj1 := by
            rw [List.get?_cons_succ] at hsj1; exact hsj1
          rw [hsense0] at hs1
          have hs1' : (execStep be st sense).2.1 = sj1 := Option.some.inj hs1
          rw [← Option.some.inj hsj, ← Option.some.inj hoj, ← hs1']
          refine ⟨?_, rfl, rfl⟩
          show sense.measured_x + (execStep be st sense).2.2.1.actuate.velocity * 100 / 1000 =
            sense.measured_x + (execStep be st sense).2.2.1.actuate.velocity * (1 / 10)
          ring
        | j' + 1 =>
          rw [List.get?_cons_succ] at hsj hsj1 hoj
          exact hrec j' sj sj1 oj hsj hsj1 hoj
    · rw [if_neg hrun] at h
      have hevs : [ExecEvent.tickEv sense (execStep be st sense).2.2.1
          (execStep be st sense).2.2.2, ExecEvent.finEv] = evs := congrArg Prod.fst h
      have hres : (some (be.finFn (execStep be st sense).1, (execStep be st sense).2.1,
          (execStep be st sense).2.2.1) : Option (τ × SenseInfo × Outcome)) = some r :=
        congrArg Prod.snd h
      subst hevs
      have hr : (be.finFn (execStep be st sense).1, (execStep be st sense).2.1,
          (execStep be st sense).2.2.1) = r := Option.some.inj hres
      subst hr
      refine ⟨by simp [tickOuts], ?_, by simp [tickOuts], hrun, by simp [ExecEvent.isFin],
        by simp, by simp [tickSenses], ?_⟩
      · intro j oj hj hjlen
        exfalso
        match j with
        | 0 => exact hjlen (by simp [tickOuts])
        | j' + 1 => simp [tickOuts] at hj
      · intro j sj sj1 oj hsj hsj1 hoj
        exfalso
        match j with
        | 0 => simp [tickSenses] at hsj1
        | j' + 1 => simp [tickSenses] at hsj

/-! ### Sequence run machinery for C1 and C2 -/

lemma updF_same {σ : Type} (f : ℕ → σ) (i : ℕ) (x : σ) : updF f i x i = x := by
  simp [updF]

lemma updF_ne {σ : Type} (f : ℕ → σ) (i : ℕ) (x : σ) (j : ℕ) (h : j ≠ i) :
    updF f i x j = f j := by
  simp [updF, h]

lemma updF_updF {σ : Type} (f : ℕ → σ) (i : ℕ) (x y : σ) :
    updF (updF f i x) i y = updF f i y := by
  funext j
  by_cases h : j = i <;> simp [updF, h]

lemma childRun_cons {σ : Type} (c : Child σ) (d : σ) (s : SenseInfo) (ss : List SenseInfo) :
    childRun c d (s :: ss) =
      ((childRun c (c.tick d s).1 ss).1,
       (c.tick d s).2 :: (childRun c (c.tick d s).1 ss).2) := by
  simp [childRun]

lemma outAt_cons_zero {σ : Type} (c : Child σ) (d : σ) (s : SenseInfo) (ss : List SenseInfo) :
    outAt c d (s :: ss) 0 = (c.tick d s).2 := by
  simp [outAt, childRun]

lemma outAt_cons_succ {σ : Type} (c : Child σ) (d : σ) (s : SenseInfo) (ss : List SenseInfo)
    (j : ℕ) :
    outAt c d (s :: ss) (j + 1) = outAt c (c.tick d s).1 ss j := by
  simp [outAt, childRun]

lemma seqRun_cons {σ : Type} (cs : List (Child σ)) (st : SeqState σ) (s : SenseInfo)
    (ws : List SenseInfo) :
    seqRun cs st (s :: ws) =
      ((seqRun cs (seqTick cs st s).1 ws).1,
       ((seqTick cs st s).2.1, (seqTick cs st s).2.2) ::
         (seqRun cs (seqTick cs st s).1 ws).2) := by
  simp [seqRun]

lemma outAtT_cons_zero (o : Outcome) (e : List SeqEvent) (t : List (Outcome × List SeqEvent)) :
    outAtT ((o, e) :: t) 0 = o := rfl

lemma outAtT_cons_succ (x : Outcome × List SeqEvent) (t : List (Outcome × List SeqEvent))
    (j : ℕ) : outAtT (x :: t) (j + 1) = outAtT t j := rfl

lemma evsAtT_cons_zero (o : Outcome) (e : List SeqEvent) (t : List (Outcome × List SeqEvent)) :
    evsAtT ((o, e) :: t) 0 = e := rfl

lemma evsAtT_cons_succ (x : Outcome × List SeqEvent) (t : List (Outcome × List SeqEvent))
    (j : ℕ) : evsAtT (x :: t) (j + 1) = evsAtT t j := rfl

/-- A tick at a valid iterator position with no pending initialize, when
the child's outcome is Running (element.hpp lines 160-162). -/
lemma seqTick_old_run {σ : Type} (cs : List (Child σ)) (i : ℕ) (hi : i < cs.length)
    (sts : ℕ → σ) (s : SenseInfo)
    (h : ((cs.get ⟨i, hi⟩).tick (sts i) s).2.value = Return.Running) :
    seqTick cs ⟨sts, i, false⟩ s =
      (⟨updF sts i ((cs.get ⟨i, hi⟩).tick (sts i) s).1, i, false⟩,
       ((cs.get ⟨i, hi⟩).tick (sts i) s).2, [SeqEvent.tickE i]) := by
  simp [seqTick, hi, h]
  exact h

/-- A tick at a valid iterator position with no pending initialize, when
the child's outcome is terminal (element.hpp lines 138-158). -/
lemma seqTick_old_term {σ : Type} (cs : List (Child σ)) (i : ℕ) (hi : i < cs.length)
    (sts : ℕ → σ) (s : SenseInfo)
    (h : ((cs.get ⟨i, hi⟩).tick (sts i) s).2.value ≠ Return.Running) :
    seqTick cs ⟨sts, i, false⟩ s =
      (⟨updF sts i ((cs.get ⟨i, hi⟩).fin ((cs.get ⟨i, hi⟩).tick (sts i) s).1), i + 1, true⟩,
       forwardOut cs.length (i + 1) ((cs.get ⟨i, hi⟩).tick (sts i) s).2,
       [SeqEvent.tickE i, SeqEvent.finE i]) := by
  simp [seqTick, hi, h]
  exact h

/-- A tick with a pending child initialize first initializes the child in
place and then proceeds exactly like a tick with no pending initialize,
with the initialize notification prepended (element.hpp lines 129-133). -/
lemma seqTick_new {σ : Type} (cs : List (Child σ)) (i : ℕ) (hi : i < cs.length)
    (sts : ℕ → σ) (s : SenseInfo) :
    seqTick cs ⟨sts, i, true⟩ s =
      ((seqTick cs ⟨updF sts i ((cs.get ⟨i, hi⟩).init (sts i)).1, i, false⟩ s).1,
       (seqTick cs ⟨updF sts i ((cs.get ⟨i, hi⟩).init (sts i)).1, i, false⟩ s).2.1,
       SeqEvent.initE i ::
         (seqTick cs ⟨updF sts i ((cs.get ⟨i, hi⟩).init (sts i)).1, i, false⟩ s).2.2) := by
  simp only [seqTick, hi, dif_pos, if_pos, if_neg, Bool.false_eq_true, ite_false, ite_true,
    updF_same]
  split <;> rfl

/-- Running a sequence whose current child has a pending initialize: the
run is the run from the initialized child's state, with the initialize
notification prepended to the first tick's events. -/
lemma seqRun_new {σ : Type} (cs : List (Child σ)) (i : ℕ) (hi : i < cs.length)
    (sts : ℕ → σ) (s : SenseInfo) (ws : List SenseInfo) :
    (seqRun cs ⟨sts, i, true⟩ (s :: ws)).1 =
      (seqRun cs ⟨updF sts i ((cs.get ⟨i, hi⟩).init (sts i)).1, i, false⟩ (s :: ws)).1 ∧
    (seqRun cs ⟨sts, i, true⟩ (s :: ws)).2.length =
      (seqRun cs ⟨updF sts i ((cs.get ⟨i, hi⟩).init (sts i)).1, i, false⟩ (s :: ws)).2.length ∧
    (∀ j, 1 ≤ j →
      (seqRun cs ⟨sts, i, true⟩ (s :: ws)).2.getD j (Outcome.default0, []) =
        (seqRun cs ⟨updF sts i ((cs.get ⟨i, hi⟩).init (sts i)).1, i, false⟩
          (s :: ws)).2.getD j (Outcome.default0, [])) ∧
    outAtT (seqRun cs ⟨sts, i, true⟩ (s :: ws)).2 0 =
      outAtT (seqRun cs ⟨updF sts i ((cs.get ⟨i, hi⟩).init (sts i)).1, i, false⟩ (s :: ws)).2 0 ∧
    evsAtT (seqRun cs ⟨sts, i, true⟩ (s :: ws)).2 0 =
      SeqEvent.initE i ::
        evsAtT (seqRun cs ⟨updF sts i ((cs.get ⟨i, hi⟩).init (sts i)).1, i, false⟩ (s :: ws)).2 0 := by
  rw [seqRun_cons, seqRun_cons, seqTick_new cs i hi sts s]
  refine ⟨rfl, by simp, ?_, rfl, rfl⟩
  intro j hj
  match j with
  | j' + 1 => simp

/-- Driving the current child (already initialized, at a valid iterator
position) through the window of ticks on which it runs and then
terminates: the sequence forwards the child's outcomes, notifies exactly
that child's tick (and its finalize on its terminal tick), finalizes it
and advances the iterator, leaving every other child's state untouched. -/
lemma seqRun_window_mid {σ : Type} (cs : List (Child σ)) (i : ℕ) (hi : i < cs.length) :
    ∀ (ws : List SenseInfo) (k : ℕ) (sts : ℕ → σ),
      1 ≤ k → ws.length = k →
      (∀ j, j + 1 < k → (outAt (cs.get ⟨i, hi⟩) (sts i) ws j).value = Return.Running) →
      (outAt (cs.get ⟨i, hi⟩) (sts i) ws (k - 1)).value ≠ Return.Running →
      (seqRun cs ⟨sts, i, false⟩ ws).1 =
        ⟨updF sts i ((cs.get ⟨i, hi⟩).fin (childRun (cs.get ⟨i, hi⟩) (sts i) ws).1),
         i + 1, true⟩ ∧
      (seqRun cs ⟨sts, i, false⟩ ws).2.length = k ∧
      (∀ j, j < k →
        outAtT (seqRun cs ⟨sts, i, false⟩ ws).2 j =
          (if j + 1 = k then
            forwardOut cs.length (i + 1) (outAt (cs.get ⟨i, hi⟩) (sts i) ws j)
          else outAt (cs.get ⟨i, hi⟩) (sts i) ws j) ∧
        evsAtT (seqRun cs ⟨sts, i, false⟩ ws).2 j =
          [SeqEvent.tickE i] ++ (if j + 1 = k then [SeqEvent.finE i] else [])) := by
  intro ws
  induction ws with
  | nil =>
    intro k sts h1 hlen _ _
    simp at hlen
    omega
  | cons s ws' ih =>
    intro k sts h1 hlen hrun hterm
    have hk : k = ws'.length + 1 := by simpa using hlen.symm
    subst hk
    by_cases hws0 : ws' = []
    · -- single-tick window: the child's outcome is terminal now
      subst hws0
      have hterm0 : ((cs.get ⟨i, hi⟩).tick (sts i) s).2.value ≠ Return.Running := by
        simpa [outAt_cons_zero] using hterm
      rw [seqRun_cons, seqTick_old_term cs i hi sts s hterm0]
      refine ⟨?_, by simp [seqRun], ?_⟩
      · simp [seqRun, childRun]
      · intro j hj
        obtain _ | j' := j
        · refine ⟨?_, ?_⟩
          · simp [seqRun, outAtT_cons_zero, outAt_cons_zero]
          · simp [seqRun, evsAtT_cons_zero]
        · exact absurd hj (by simp)
    · -- the child keeps Running on this tick
      have hlen1 : 1 ≤ ws'.length := by
        have := List.length_pos.mpr hws0
        omega
      have hrun0 : ((cs.get ⟨i, hi⟩).tick (sts i) s).2.value = Return.Running := by
        have := hrun 0 (by omega)
        simpa [outAt_cons_zero] using this
      rw [seqRun_cons, seqTick_old_run cs i hi sts s hrun0]
      have hih := ih ws'.length (updF sts i ((cs.get ⟨i, hi⟩).tick (sts i) s).1)
        hlen1 rfl
        (by
          intro j hj
          rw [updF_same]
          have := hrun (j + 1) (by omega)
          rwa [outAt_cons_succ] at this)
        (by
          rw [updF_same]
          have := hterm
          have hkm : ws'.length + 1 - 1 = (ws'.length - 1) + 1 := by omega
          rw [hkm, outAt_cons_succ] at this
          exact this)
      obtain ⟨hst, hlen2, hprops⟩ := hih
      refine ⟨?_, by simpa using hlen2, ?_⟩
      · rw [hst, updF_updF, updF_same]
        rw [childRun_cons]
      · intro j hj
        match j with
        | 0 =>
          constructor
          · rw [outAtT_cons_zero]
            have : ¬ (0 + 1 = ws'.length + 1) := by omega
            rw [if_neg this, outAt_cons_zero]
          · rw [evsAtT_cons_zero]
            have : ¬ (0 + 1 = ws'.length + 1) := by omega
            rw [if_neg this]
            simp
        | j' + 1 =>
          have hj' : j' < ws'.length := by omega
          obtain ⟨ho, he⟩ := hprops j' hj'
          rw [updF_same] at ho
          constructor
          · rw [outAtT_cons_succ, ho, outAt_cons_succ]
            have hiff : (j' + 1 = ws'.length) = (j' + 1 + 1 = ws'.length + 1) := by
              simp
            by_cases hce : j' + 1 = ws'.length
            · rw [if_pos hce, if_pos (by omega : j' + 1 + 1 = ws'.length + 1)]
            · rw [if_neg hce, if_neg (by omega : ¬ j' + 1 + 1 = ws'.length + 1)]
          · rw [evsAtT_cons_succ, he]
            by_cases hce : j' + 1 = ws'.length
            · rw [if_pos hce, if_pos (by omega : j' + 1 + 1 = ws'.length + 1)]
            · rw [if_neg hce, if_neg (by omega : ¬ j' + 1 + 1 = ws'.length + 1)]

/-- Driving the pending (not yet initialized) current child through the
window of ticks on which it runs and then terminates: as
`seqRun_window_mid`, plus the lazy initialize on the window's first tick,
from the child's pre-initialize state. -/
lemma seqRun_window_new {σ : Type} (cs : List (Child σ)) (i : ℕ) (hi : i < cs.length)
    (ws : List SenseInfo) (k : ℕ) (sts : ℕ → σ)
    (h1 : 1 ≤ k) (hlen : ws.length = k)
    (hrun : ∀ j, j + 1 < k →
      (outAt (cs.get ⟨i, hi⟩) ((cs.get ⟨i, hi⟩).init (sts i)).1 ws j).value = Return.Running)
    (hterm : (outAt (cs.get ⟨i, hi⟩) ((cs.get ⟨i, hi⟩).init (sts i)).1 ws
      (k - 1)).value ≠ Return.Running) :
    (seqRun cs ⟨sts, i, true⟩ ws).1 =
      ⟨updF sts i ((cs.get ⟨i, hi⟩).fin
        (childRun (cs.get ⟨i, hi⟩) ((cs.get ⟨i, hi⟩).init (sts i)).1 ws).1), i + 1, true⟩ ∧
    (seqRun cs ⟨sts, i, true⟩ ws).2.length = k ∧
    (∀ j, j < k →
      outAtT (seqRun cs ⟨sts, i, true⟩ ws).2 j =
        (if j + 1 = k then
          forwardOut cs.length (i + 1)
            (outAt (cs.get ⟨i, hi⟩) ((cs.get ⟨i, hi⟩).init (sts i)).1 ws j)
        else outAt (cs.get ⟨i, hi⟩) ((cs.get ⟨i, hi⟩).init (sts i)).1 ws j) ∧
      evsAtT (seqRun cs ⟨sts, i, true⟩ ws).2 j =
        (if j = 0 then [SeqEvent.initE i] else []) ++ [SeqEvent.tickE i] ++
        (if j + 1 = k then [SeqEvent.finE i] else [])) := by
  rcases ws with _ | ⟨s, ws'⟩
  · simp at hlen; omega
  · have hnew := seqRun_new cs i hi sts s ws'
    have hmid := seqRun_window_mid cs i hi (s :: ws') k
      (updF sts i ((cs.get ⟨i, hi⟩).init (sts i)).1) h1 hlen
      (by intro j hj; rw [updF_same]; exact hrun j hj)
      (by rw [updF_same]; exact hterm)
    obtain ⟨hnst, hnlen, hntail, hnout0, hnevs0⟩ := hnew
    obtain ⟨hmst, hmlen, hmprops⟩ := hmid
    rw [updF_same] at hmst hmprops
    refine ⟨?_, ?_, ?_⟩
    · rw [hnst, hmst, updF_updF]
    · rw [hnlen, hmlen]
    · intro j hj
      obtain _ | j' := j
      · obtain ⟨hmo, hme⟩ := hmprops 0 hj
        refine ⟨?_, ?_⟩
        · rw [hnout0, hmo]
        · rw [hnevs0, hme]
          simp
      · have hgtail := hntail (j' + 1) (by omega)
        obtain ⟨hmo, hme⟩ := hmprops (j' + 1) hj
        refine ⟨?_, ?_⟩
        · unfold outAtT at hmo ⊢
          rw [hgtail, hmo]
        · unfold evsAtT at hme ⊢
          rw [hgtail, hme]
          simp

lemma ticksBefore_zero (ks : List ℕ) : ticksBefore ks 0 = 0 := by
  simp [ticksBefore]

lemma ticksBefore_succ (ks : List ℕ) :
    ∀ m, m < ks.length → ticksBefore ks (m + 1) = ticksBefore ks m + ks.getD m 0 := by
  induction ks with
  | nil => intro m hm; simp at hm
  | cons a ks ih =>
    intro m hm
    match m with
    | 0 => simp [ticksBefore]
    | m' + 1 =>
      have hlt : m' < ks.length := by simpa using hm
      have := ih m' hlt
      simp only [ticksBefore, List.take_succ_cons, List.sum_cons, List.getD_cons_succ] at this ⊢
      omega

lemma ticksBefore_le_succ (ks : List ℕ) (m : ℕ) :
    ticksBefore ks m ≤ ticksBefore ks (m + 1) := by
  by_cases h : m < ks.length
  · rw [ticksBefore_succ ks m h]; omega
  · push_neg at h
    unfold ticksBefore
    rw [List.take_of_length_le h, List.take_of_length_le (by omega)]

lemma ticksBefore_mono (ks : List ℕ) (i : ℕ) :
    ∀ m, i ≤ m → ticksBefore ks i ≤ ticksBefore ks m := by
  intro m
  induction m with
  | zero =>
    intro h
    have h0 : i = 0 := by omega
    rw [h0]
  | succ m ih =>
    intro h
    rcases Nat.lt_or_ge i (m + 1) with hlt | hge
    · exact le_trans (ih (by omega)) (ticksBefore_le_succ ks m)
    · have : i = m + 1 := by omega
      rw [this]

/-- Every tick index below the total tick budget of the first `m` children
falls in exactly one child's window. -/
lemma ticksBefore_cover (ks : List ℕ) :
    ∀ m t, t < ticksBefore ks m →
      ∃ i, i < m ∧ ∃ j, j < ks.getD i 0 ∧ t = ticksBefore ks i + j := by
  intro m
  induction m with
  | zero => intro t ht; rw [ticksBefore_zero] at ht; omega
  | succ m ih =>
    intro t ht
    by_cases hlt : t < ticksBefore ks m
    · obtain ⟨i, him, j, hj, ht'⟩ := ih t hlt
      exact ⟨i, by omega, j, hj, ht'⟩
    · push_neg at hlt
      refine ⟨m, by omega, t - ticksBefore ks m, ?_, by omega⟩
      by_cases hm : m < ks.length
      · rw [ticksBefore_succ ks m hm] at ht; omega
      · push_neg at hm
        unfold ticksBefore at ht hlt
        rw [List.take_of_length_le (by omega)] at ht
        rw [List.take_of_length_le hm] at hlt
        omega

/-- A child's window inside a longer input stream is unchanged when the
stream is cut after a later child's window. -/
lemma window_take (ks : List ℕ) (ws : List SenseInfo) (i m : ℕ)
    (him : i < m) (hm : m ≤ ks.length) :
    window ks (ws.take (ticksBefore ks m)) i = window ks ws i := by
  unfold window
  rw [List.drop_take, List.take_take]
  congr 1
  have h1 : ticksBefore ks (i + 1) = ticksBefore ks i + ks.getD i 0 :=
    ticksBefore_succ ks i (by omega)
  have h2 : ticksBefore ks (i + 1) ≤ ticksBefore ks m :=
    ticksBefore_mono ks (i + 1) m (by omega)
  omega

lemma seqRun_append {σ : Type} (cs : List (Child σ)) (ws1 ws2 : List SenseInfo) :
    ∀ st : SeqState σ,
      seqRun cs st (ws1 ++ ws2) =
        ((seqRun cs (seqRun cs st ws1).1 ws2).1,
         (seqRun cs st ws1).2 ++ (seqRun cs (seqRun cs st ws1).1 ws2).2) := by
  induction ws1 with
  | nil => intro st; simp [seqRun]
  | cons s t ih =>
    intro st
    rw [List.cons_append, seqRun_cons, seqRun_cons, ih]
    simp

lemma outAtT_append_left (t1 t2 : List (Outcome × List SeqEvent)) (t : ℕ)
    (h : t < t1.length) : outAtT (t1 ++ t2) t = outAtT t1 t := by
  unfold outAtT
  rw [List.getD_append _ _ _ _ h]

lemma outAtT_append_right (t1 t2 : List (Outcome × List SeqEvent)) (t : ℕ)
    (h : t1.length ≤ t) : outAtT (t1 ++ t2) t = outAtT t2 (t - t1.length) := by
  unfold outAtT
  rw [List.getD_append_right _ _ _ _ h]

lemma evsAtT_append_left (t1 t2 : List (Outcome × List SeqEvent)) (t : ℕ)
    (h : t < t1.length) : evsAtT (t1 ++ t2) t = evsAtT t1 t := by
  unfold evsAtT
  rw [List.getD_append _ _ _ _ h]

lemma evsAtT_append_right (t1 t2 : List (Outcome × List SeqEvent)) (t : ℕ)
    (h : t1.length ≤ t) : evsAtT (t1 ++ t2) t = evsAtT t2 (t - t1.length) := by
  unfold evsAtT
  rw [List.getD_append_right _ _ _ _ h]

/-- Running an initialized sequence over the combined tick windows of its
first `m` children, when those children all eventually Succeed: the
iterator ends up at child `m` with a pending initialize, later children's
states are untouched, and every tick of the run belongs to exactly one
child's window, with that child's forwarded outcome and exactly its
lifecycle notifications. -/
lemma seqRun_prefix {σ : Type} (cs : List (Child σ)) (ks : List ℕ) :
    ∀ (m : ℕ) (sts : ℕ → σ) (ws : List SenseInfo),
      m ≤ cs.length → m ≤ ks.length →
      (∀ i, i < m → SucceedsAfter (cs.getD i Child.dummy) (ks.getD i 0)) →
      ws.length = ticksBefore ks m →
      (seqRun cs ⟨sts, 0, true⟩ ws).1.iter = m ∧
      (seqRun cs ⟨sts, 0, true⟩ ws).1.newElement = true ∧
      (∀ j, m ≤ j → (seqRun cs ⟨sts, 0, true⟩ ws).1.childStates j = sts j) ∧
      (seqRun cs ⟨sts, 0, true⟩ ws).2.length = ws.length ∧
      (∀ i j, i < m → j < ks.getD i 0 →
        outAtT (seqRun cs ⟨sts, 0, true⟩ ws).2 (ticksBefore ks i + j) =
          (if j + 1 = ks.getD i 0 then
            forwardOut cs.length (i + 1)
              (outAt (cs.getD i Child.dummy)
                ((cs.getD i Child.dummy).init (sts i)).1 (window ks ws i) j)
          else
            outAt (cs.getD i Child.dummy)
              ((cs.getD i Child.dummy).init (sts i)).1 (window ks ws i) j) ∧
        evsAtT (seqRun cs ⟨sts, 0, true⟩ ws).2 (ticksBefore ks i + j) =
          (if j = 0 then [SeqEvent.initE i] else []) ++ [SeqEvent.tickE i] ++
          (if j + 1 = ks.getD i 0 then [SeqEvent.finE i] else [])) := by
  intro m
  induction m with
  | zero =>
    intro sts ws _ _ _ hws
    rw [ticksBefore_zero] at hws
    have hnil : ws = [] := List.length_eq_zero.mp hws
    subst hnil
    exact ⟨rfl, rfl, fun j _ => rfl, rfl, fun i j hi _ => absurd hi (by omega)⟩
  | succ m ih =>
    intro sts ws hmc1 hmk1 hsucc hws
    have hmc : m < cs.length := by omega
    have hmk : m < ks.length := by omega
    have htb : ticksBefore ks (m + 1) = ticksBefore ks m + ks.getD m 0 :=
      ticksBefore_succ ks m hmk
    obtain ⟨hk1, hterm⟩ := hsucc m (by omega)
    have hBle : ticksBefore ks m ≤ ws.length := by rw [hws, htb]; omega
    have hA : (ws.take (ticksBefore ks m)).length = ticksBefore ks m := by
      rw [List.length_take]; omega
    have hB : (ws.drop (ticksBefore ks m)).length = ks.getD m 0 := by
      rw [List.length_drop, hws, htb]; omega
    have hsplit : ws.take (ticksBefore ks m) ++ ws.drop (ticksBefore ks m) = ws :=
      List.take_append_drop _ _
    obtain ⟨hiter, hnew, hpres, hlenA, hpropsA⟩ :=
      ih sts (ws.take (ticksBefore ks m)) (by omega) (by omega)
        (fun i hi => hsucc i (by omega)) hA
    have hform : (seqRun cs ⟨sts, 0, true⟩ (ws.take (ticksBefore ks m))).1 =
        ⟨(seqRun cs ⟨sts, 0, true⟩ (ws.take (ticksBefore ks m))).1.childStates, m, true⟩ := by
      have h : (⟨(seqRun cs ⟨sts, 0, true⟩ (ws.take (ticksBefore ks m))).1.childStates,
          (seqRun cs ⟨sts, 0, true⟩ (ws.take (ticksBefore ks m))).1.iter,
          (seqRun cs ⟨sts, 0, true⟩ (ws.take (ticksBefore ks m))).1.newElement⟩ : SeqState σ) =
          ⟨(seqRun cs ⟨sts, 0, true⟩ (ws.take (ticksBefore ks m))).1.childStates, m, true⟩ := by
        rw [hiter, hnew]
      exact h
    have htrA : (seqRun cs ⟨sts, 0, true⟩ (ws.take (ticksBefore ks m))).2.length =
        ticksBefore ks m := by
      rw [hlenA, hA]
    have hfm : (seqRun cs ⟨sts, 0, true⟩ (ws.take (ticksBefore ks m))).1.childStates m =
        sts m := hpres m (by omega)
    have hgd : cs.getD m Child.dummy = cs.get ⟨m, hmc⟩ :=
      List.getD_eq_get cs Child.dummy hmc
    have hWf := hterm
      ((seqRun cs ⟨sts, 0, true⟩ (ws.take (ticksBefore ks m))).1.childStates m)
      (ws.drop (ticksBefore ks m)) (by rw [hB])
    rw [hgd] at hWf
    have htermB : (outAt (cs.get ⟨m, hmc⟩)
        ((cs.get ⟨m, hmc⟩).init
          ((seqRun cs ⟨sts, 0, true⟩ (ws.take (ticksBefore ks m))).1.childStates m)).1
        (ws.drop (ticksBefore ks m)) (ks.getD m 0 - 1)).value ≠ Return.Running := by
      rw [hWf.2]; simp
    obtain ⟨hstB, hlenB, hpropsB⟩ :=
      seqRun_window_new cs m hmc (ws.drop (ticksBefore ks m)) (ks.getD m 0)
        (seqRun cs ⟨sts, 0, true⟩ (ws.take (ticksBefore ks m))).1.childStates
        hk1 hB hWf.1 htermB
    have hwin : window ks ws m = ws.drop (ticksBefore ks m) := by
      unfold window
      rw [← hB, List.take_length]
    have hfull := seqRun_append cs (ws.take (ticksBefore ks m))
      (ws.drop (ticksBefore ks m)) ⟨sts, 0, true⟩
    rw [hsplit, hform] at hfull
    refine ⟨?_, ?_, ?_, ?_, ?_⟩
    · rw [hfull]
      show (seqRun cs ⟨_, m, true⟩ (ws.drop (ticksBefore ks m))).1.iter = m + 1
      rw [hstB]
    · rw [hfull]
      show (seqRun cs ⟨_, m, true⟩ (ws.drop (ticksBefore ks m))).1.newElement = true
      rw [hstB]
    · intro j hj
      rw [hfull]
      show (seqRun cs ⟨_, m, true⟩ (ws.drop (ticksBefore ks m))).1.childStates j = sts j
      rw [hstB]
      show updF _ m _ j = sts j
      rw [updF_ne _ _ _ _ (by omega)]
      exact hpres j (by omega)
    · rw [hfull]
      show ((seqRun cs ⟨sts, 0, true⟩ (ws.take (ticksBefore ks m))).2 ++
        (seqRun cs ⟨_, m, true⟩ (ws.drop (ticksBefore ks m))).2).length = ws.length
      rw [List.length_append, htrA, hlenB, hws, htb]
    · intro i j hi hj
      by_cases him : i < m
      · have hik : i < ks.length := by omega
        have htlt : ticksBefore ks i + j < ticksBefore ks m := by
          have h1 : ticksBefore ks (i + 1) = ticksBefore ks i + ks.getD i 0 :=
            ticksBefore_succ ks i hik
          have h2 : ticksBefore ks (i + 1) ≤ ticksBefore ks m :=
            ticksBefore_mono ks (i + 1) m (by omega)
          omega
        obtain ⟨hoA, heA⟩ := hpropsA i j him hj
        rw [window_take ks ws i m him (by omega)] at hoA
        constructor
        · rw [hfull]
          show outAtT ((seqRun cs ⟨sts, 0, true⟩ (ws.take (ticksBefore ks m))).2 ++
            (seqRun cs ⟨_, m, true⟩ (ws.drop (ticksBefore ks m))).2) (ticksBefore ks i + j) = _
          rw [outAtT_append_left _ _ _ (by omega)]
          exact hoA
        · rw [hfull]
          show evsAtT ((seqRun cs ⟨sts, 0, true⟩ (ws.take (ticksBefore ks m))).2 ++
            (seqRun cs ⟨_, m, true⟩ (ws.drop (ticksBefore ks m))).2) (ticksBefore ks i + j) = _
          rw [evsAtT_append_left _ _ _ (by omega)]
          exact heA
      · have him' : i = m := by omega
        subst him'
        obtain ⟨hoB, heB⟩ := hpropsB j hj
        constructor
        · rw [hfull]
          show outAtT ((seqRun cs ⟨sts, 0, true⟩ (ws.take (ticksBefore ks i))).2 ++
            (seqRun cs ⟨_, i, true⟩ (ws.drop (ticksBefore ks i))).2) (ticksBefore ks i + j) = _
          rw [outAtT_append_right _ _ _ (by omega)]
          have hsub : ticksBefore ks i + j -
              (seqRun cs ⟨sts, 0, true⟩ (ws.take (ticksBefore ks i))).2.length = j := by
            omega
          rw [hsub, hgd, hwin, ← hfm]
          exact hoB
        · rw [hfull]
          show evsAtT ((seqRun cs ⟨sts, 0, true⟩ (ws.take (ticksBefore ks i))).2 ++
            (seqRun cs ⟨_, i, true⟩ (ws.drop (ticksBefore ks i))).2) (ticksBefore ks i + j) = _
          rw [evsAtT_append_right _ _ _ (by omega)]
          have hsub : ticksBefore ks i + j -
              (seqRun cs ⟨sts, 0, true⟩ (ws.take (ticksBefore ks i))).2.length = j := by
            omega
          rw [hsub]
          exact heB

/-- Forwarding a terminal child outcome never changes the actuate
command (element.hpp lines 145-158 copy `cur_o.actuate` in all cases). -/
lemma forwardOut_actuate (n m : ℕ) (o : Outcome) :
    (forwardOut n m o).actuate = o.actuate := by
  unfold forwardOut
  split
  · split <;> rfl
  · rfl

/-- A Fail outcome is always forwarded unchanged. -/
lemma forwardOut_fail (n m : ℕ) (o : Outcome) (h : o.value = Return.Fail) :
    forwardOut n m o = o := by
  unfold forwardOut
  split <;> simp [h]

lemma ticksBefore_lt (ks : List ℕ) (i : ℕ) :
    ∀ m, i < m → m ≤ ks.length → (∀ l, l < m → 1 ≤ ks.getD l 0) →
      ticksBefore ks i < ticksBefore ks m := by
  intro m
  induction m with
  | zero => intro h _ _; omega
  | succ m ih =>
    intro him hm hk
    rcases Nat.lt_or_ge i m with hlt | hge
    · exact lt_of_lt_of_le (ih hlt (by omega) (fun l hl => hk l (by omega)))
        (ticksBefore_le_succ ks m)
    · have hieq : i = m := by omega
      subst hieq
      rw [ticksBefore_succ ks i (by omega)]
      have := hk i (by omega)
      omega

lemma window_length (ks : List ℕ) (ws : List SenseInfo) (i : ℕ)
    (hik : i < ks.length) (h : ticksBefore ks (i + 1) ≤ ws.length) :
    (window ks ws i).length = ks.getD i 0 := by
  unfold window
  rw [List.length_take, List.length_drop]
  have := ticksBefore_succ ks i hik
  omega

lemma succNow_succeeds : SucceedsAfter succNow 1 := by
  refine ⟨le_refl 1, ?_⟩
  intro d ss hss
  refine ⟨fun j hj => absurd hj (by omega), ?_⟩
  rcases ss with _ | ⟨s, ss'⟩
  · simp at hss
  · simp [outAt_cons_zero, succNow]

lemma failNow_fails : FailsAfter failNow 1 := by
  refine ⟨le_refl 1, ?_⟩
  intro d ss hss
  refine ⟨fun j hj => absurd hj (by omega), ?_⟩
  rcases ss with _ | ⟨s, ss'⟩
  · simp at hss
  · simp [outAt_cons_zero, failNow]

/-- C1: running an initialized SequenceElement over N ≥ 1 children that
each eventually Succeed (child i needing `ks i` ticks), with exactly the
total tick budget of inputs: each tick belongs to exactly one child's
window, in order; the child is initialized on its window's first tick,
ticked exactly once per tick of its window, and finalized on its last
(success) tick and never ticked again; the sequence's outcome is the
forwarded child outcome — Running on every tick before the last (in
particular on each non-last child's success tick, carrying that child's
actuate command), and Success exactly on the tick the last child
succeeds; the sequence's actuate always equals the outcome the active
child produced on that very tick (never a default-constructed command). -/
theorem sequence_all_children_succeed (σ : Type) (cs : List (Child σ)) (ks : List ℕ)
    (st : SeqState σ) (ws : List SenseInfo)
    (hN : 1 ≤ cs.length) (hlen : ks.length = cs.length)
    (hsucc : ∀ i, i < cs.length → SucceedsAfter (cs.getD i Child.dummy) (ks.getD i 0))
    (hws : ws.length = ticksBefore ks cs.length) :
    (seqRun cs (seqInit st).1 ws).2.length = ws.length ∧
    (∀ i j, i < cs.length → j < ks.getD i 0 →
      evsAtT (seqRun cs (seqInit st).1 ws).2 (ticksBefore ks i + j) =
        (if j = 0 then [SeqEvent.initE i] else []) ++ [SeqEvent.tickE i] ++
        (if j + 1 = ks.getD i 0 then [SeqEvent.finE i] else [])) ∧
    (∀ i j, i < cs.length → j < ks.getD i 0 →
      outAtT (seqRun cs (seqInit st).1 ws).2 (ticksBefore ks i + j) =
        (if j + 1 = ks.getD i 0 then
          forwardOut cs.length (i + 1)
            (outAt (cs.getD i Child.dummy)
              ((cs.getD i Child.dummy).init (st.childStates i)).1 (window ks ws i) j)
        else
          outAt (cs.getD i Child.dummy)
            ((cs.getD i Child.dummy).init (st.childStates i)).1 (window ks ws i) j)) ∧
    (∀ i j, i < cs.length → j < ks.getD i 0 →
      (outAtT (seqRun cs (seqInit st).1 ws).2 (ticksBefore ks i + j)).actuate =
        (outAt (cs.getD i Child.dummy)
          ((cs.getD i Child.dummy).init (st.childStates i)).1 (window ks ws i) j).actuate) ∧
    (∀ t, t < ws.length → ∃ i, i < cs.length ∧ ∃ j, j < ks.getD i 0 ∧
      t = ticksBefore ks i + j) ∧
    (∀ t, t + 1 < ws.length →
      (outAtT (seqRun cs (seqInit st).1 ws).2 t).value = Return.Running) ∧
    (∀ t, t < ws.length →
      ((outAtT (seqRun cs (seqInit st).1 ws).2 t).value = Return.Success ↔
        t + 1 = ws.length)) ∧
    (∀ i t, t < ws.length → SeqEvent.tickE i ∈ evsAtT (seqRun cs (seqInit st).1 ws).2 t →
      ticksBefore ks i ≤ t ∧ t < ticksBefore ks i + ks.getD i 0) := by
  simp only [seqInit]
  obtain ⟨_, _, _, hlen2, hprops⟩ :=
    seqRun_prefix cs ks cs.length st.childStates ws (le_refl _) (by omega) hsucc hws
  have hkpos : ∀ l, l < cs.length → 1 ≤ ks.getD l 0 := fun l hl => (hsucc l hl).1
  have hwin : ∀ i, i < cs.length → (window ks ws i).length = ks.getD i 0 := by
    intro i hi
    apply window_length ks ws i (by omega)
    rw [hws]
    exact ticksBefore_mono ks (i + 1) cs.length (by omega)
  have hchild : ∀ i, i < cs.length →
      (∀ j, j + 1 < ks.getD i 0 → (outAt (cs.getD i Child.dummy)
        ((cs.getD i Child.dummy).init (st.childStates i)).1 (window ks ws i) j).value =
          Return.Running) ∧
      (outAt (cs.getD i Child.dummy) ((cs.getD i Child.dummy).init (st.childStates i)).1
        (window ks ws i) (ks.getD i 0 - 1)).value = Return.Success := by
    intro i hi
    exact (hsucc i hi).2 (st.childStates i) (window ks ws i) (by rw [hwin i hi])
  refine ⟨hlen2, fun i j hi hj => (hprops i j hi hj).2,
    fun i j hi hj => (hprops i j hi hj).1, ?_, ?_, ?_, ?_, ?_⟩
  · intro i j hi hj
    rw [(hprops i j hi hj).1]
    by_cases hjk : j + 1 = ks.getD i 0
    · rw [if_pos hjk, forwardOut_actuate]
    · rw [if_neg hjk]
  · intro t ht
    rw [hws] at ht
    exact ticksBefore_cover ks cs.length t ht
  · intro t ht
    have ht' : t < ticksBefore ks cs.length := by rw [← hws]; omega
    obtain ⟨i, hi, j, hj, rfl⟩ := ticksBefore_cover ks cs.length t ht'
    rw [(hprops i j hi hj).1]
    have hBi1 : ticksBefore ks (i + 1) = ticksBefore ks i + ks.getD i 0 :=
      ticksBefore_succ ks i (by omega)
    by_cases hjk : j + 1 = ks.getD i 0
    · rw [if_pos hjk]
      have hiN : i + 1 < cs.length := by
        rcases Nat.lt_or_ge (i + 1) cs.length with h | h
        · exact h
        · exfalso
          have hieq : i + 1 = cs.length := by omega
          have hteq : ticksBefore ks i + j + 1 = ws.length := by
            rw [hws, ← hieq, hBi1]; omega
          omega
      unfold forwardOut
      rw [if_pos hiN]
      have hjv : j = ks.getD i 0 - 1 := by omega
      subst hjv
      have hsv := (hchild i hi).2
      rw [if_neg (by rw [hsv]; simp)]
    · rw [if_neg hjk]
      exact (hchild i hi).1 j (by omega)
  · intro t ht
    have ht' : t < ticksBefore ks cs.length := by rw [← hws]; exact ht
    obtain ⟨i, hi, j, hj, rfl⟩ := ticksBefore_cover ks cs.length t ht'
    rw [(hprops i j hi hj).1]
    have hBi1 : ticksBefore ks (i + 1) = ticksBefore ks i + ks.getD i 0 :=
      ticksBefore_succ ks i (by omega)
    by_cases hjk : j + 1 = ks.getD i 0
    · rw [if_pos hjk]
      by_cases hiN : i + 1 = cs.length
      · have hjv : j = ks.getD i 0 - 1 := by omega
        subst hjv
        have hk1 := hkpos i hi
        have hteq : ticksBefore ks i + (ks.getD i 0 - 1) + 1 = ws.length := by
          rw [hws, ← hiN, hBi1]; omega
        constructor
        · intro _; exact hteq
        · intro _
          unfold forwardOut
          rw [if_neg (by omega : ¬ i + 1 < cs.length)]
          exact (hchild i hi).2
      · have hiN' : i + 1 < cs.length := by omega
        have hltN : ticksBefore ks (i + 1) < ticksBefore ks cs.length :=
          ticksBefore_lt ks (i + 1) cs.length hiN' (by omega) hkpos
        have htne : ¬ (ticksBefore ks i + j + 1 = ws.length) := by
          rw [hws]; omega
        unfold forwardOut
        rw [if_pos hiN']
        have hjv : j = ks.getD i 0 - 1 := by omega
        subst hjv
        have hsv := (hchild i hi).2
        rw [if_neg (by rw [hsv]; simp)]
        constructor
        · intro hcontra; simp at hcontra
        · intro heq; exact absurd heq htne
    · rw [if_neg hjk]
      have hrv := (hchild i hi).1 j (by omega)
      have hmono : ticksBefore ks (i + 1) ≤ ticksBefore ks cs.length :=
        ticksBefore_mono ks (i + 1) cs.length (by omega)
      have htne : ¬ (ticksBefore ks i + j + 1 = ws.length) := by
        rw [hws]; omega
      constructor
      · intro hcontra; rw [hrv] at hcontra; simp at hcontra
      · intro heq; exact absurd heq htne
  · intro i t ht hmem
    have ht' : t < ticksBefore ks cs.length := by rw [← hws]; exact ht
    obtain ⟨i', hi', j, hj, rfl⟩ := ticksBefore_cover ks cs.length t ht'
    rw [(hprops i' j hi' hj).2] at hmem
    have hii : i = i' := by
      by_cases hz : j = 0 <;> by_cases hk : j + 1 = ks.getD i' 0 <;>
        simpa [hz, hk] using hmem
    subst hii
    exact ⟨by omega, by omega⟩

/-- Witness for C1: two children that each succeed on their first tick,
driven for exactly two ticks; the second tick is the sequence's Success. -/
theorem sequence_all_children_succeed_witness :
    SucceedsAfter succNow 1 ∧
    ([sense0, sense0] : List SenseInfo).length = ticksBefore [1, 1] 2 ∧
    (outAtT (seqRun [succNow, succNow]
      (seqInit ⟨fun _ => (), 0, true⟩).1 [sense0, sense0]).2 1).value = Return.Success := by
  refine ⟨succNow_succeeds, by decide, ?_⟩
  have h := sequence_all_children_succeed Unit [succNow, succNow] [1, 1]
    ⟨fun _ => (), 0, true⟩ [sense0, sense0] (by decide) (by decide)
    (by
      intro i hi
      match i with
      | 0 => exact succNow_succeeds
      | 1 => exact succNow_succeeds
      | n + 2 =>
        rw [List.length_cons, List.length_cons, List.length_nil] at hi
        omega)
    (by decide)
  exact (h.2.2.2.2.2.2.1 1 (by decide)).mpr (by decide)

/-- Any event in one tick of a child's window names that child. -/
lemma idx_of_mem_window_evs (i j k : ℕ) (e : SeqEvent)
    (h : e ∈ (if j = 0 then [SeqEvent.initE i] else []) ++ [SeqEvent.tickE i] ++
      (if j + 1 = k then [SeqEvent.finE i] else [])) : SeqEvent.idx e = i := by
  rcases List.mem_append.mp h with h1 | h2
  · rcases List.mem_append.mp h1 with h3 | h4
    · split at h3
      · simp at h3; subst h3; rfl
      · simp at h3
    · simp at h4; subst h4; rfl
  · split at h2
    · simp at h2; subst h2; rfl
    · simp at h2

/-- C2: for a SequenceElement whose children `0..m-1` each Succeed (child
i needing `ks i` ticks) while child `m` Fails on its tick number `f`, with
more children after it (m + 1 < N), a run from initialize over exactly the
ticks up to the failure: every tick before the last reports Running, the
last tick reports child m's failing Outcome itself — Fail, carrying child
m's actuate command — and no lifecycle call (initialize, tick or finalize)
ever touches a child beyond child m. -/
theorem sequence_short_circuit_fail (σ : Type) (cs : List (Child σ)) (ks : List ℕ)
    (st : SeqState σ) (ws : List SenseInfo) (m f : ℕ)
    (hm : m + 1 < cs.length) (hmk : m ≤ ks.length)
    (hsucc : ∀ i, i < m → SucceedsAfter (cs.getD i Child.dummy) (ks.getD i 0))
    (hfail : FailsAfter (cs.getD m Child.dummy) f)
    (hws : ws.length = ticksBefore ks m + f) :
    (seqRun cs (seqInit st).1 ws).2.length = ws.length ∧
    outAtT (seqRun cs (seqInit st).1 ws).2 (ws.length - 1) =
      outAt (cs.getD m Child.dummy)
        ((cs.getD m Child.dummy).init (st.childStates m)).1
        (ws.drop (ticksBefore ks m)) (f - 1) ∧
    (outAtT (seqRun cs (seqInit st).1 ws).2 (ws.length - 1)).value = Return.Fail ∧
    (∀ t, t + 1 < ws.length →
      (outAtT (seqRun cs (seqInit st).1 ws).2 t).value = Return.Running) ∧
    (∀ t e, t < ws.length → e ∈ evsAtT (seqRun cs (seqInit st).1 ws).2 t →
      SeqEvent.idx e ≤ m) := by
  simp only [seqInit]
  have hmc : m < cs.length := by omega
  have hk1 : 1 ≤ f := hfail.1
  have hBle : ticksBefore ks m ≤ ws.length := by rw [hws]; omega
  have hA : (ws.take (ticksBefore ks m)).length = ticksBefore ks m := by
    rw [List.length_take]; omega
  have hB : (ws.drop (ticksBefore ks m)).length = f := by
    rw [List.length_drop, hws]; omega
  have hsplit : ws.take (ticksBefore ks m) ++ ws.drop (ticksBefore ks m) = ws :=
    List.take_append_drop _ _
  obtain ⟨hiter, hnew, hpres, hlenA, hpropsA⟩ :=
    seqRun_prefix cs ks m st.childStates (ws.take (ticksBefore ks m)) (by omega) hmk hsucc hA
  have hform : (seqRun cs ⟨st.childStates, 0, true⟩ (ws.take (ticksBefore ks m))).1 =
      ⟨(seqRun cs ⟨st.childStates, 0, true⟩ (ws.take (ticksBefore ks m))).1.childStates,
        m, true⟩ := by
    have h : (⟨(seqRun cs ⟨st.childStates, 0, true⟩ (ws.take (ticksBefore ks m))).1.childStates,
        (seqRun cs ⟨st.childStates, 0, true⟩ (ws.take (ticksBefore ks m))).1.iter,
        (seqRun cs ⟨st.childStates, 0, true⟩ (ws.take (ticksBefore ks m))).1.newElement⟩ :
          SeqState σ) =
        ⟨(seqRun cs ⟨st.childStates, 0, true⟩ (ws.take (ticksBefore ks m))).1.childStates,
          m, true⟩ := by
      rw [hiter, hnew]
    exact h
  have htrA : (seqRun cs ⟨st.childStates, 0, true⟩ (ws.take (ticksBefore ks m))).2.length =
      ticksBefore ks m := by
    rw [hlenA, hA]
  have hfm : (seqRun cs ⟨st.childStates, 0, true⟩ (ws.take (ticksBefore ks m))).1.childStates m =
      st.childStates m := hpres m (by omega)
  have hgd : cs.getD m Child.dummy = cs.get ⟨m, hmc⟩ :=
    List.getD_eq_get cs Child.dummy hmc
  have hWf := hfail.2
    ((seqRun cs ⟨st.childStates, 0, true⟩ (ws.take (ticksBefore ks m))).1.childStates m)
    (ws.drop (ticksBefore ks m)) (by rw [hB])
  rw [hgd] at hWf
  have htermB : (outAt (cs.get ⟨m, hmc⟩)
      ((cs.get ⟨m, hmc⟩).init
        ((seqRun cs ⟨st.childStates, 0, true⟩ (ws.take (ticksBefore ks m))).1.childStates m)).1
      (ws.drop (ticksBefore ks m)) (f - 1)).value ≠ Return.Running := by
    rw [hWf.2]; simp
  obtain ⟨hstB, hlenB, hpropsB⟩ :=
    seqRun_window_new cs m hmc (ws.drop (ticksBefore ks m)) f
      (seqRun cs ⟨st.childStates, 0, true⟩ (ws.take (ticksBefore ks m))).1.childStates
      hk1 hB hWf.1 htermB
  have hfull := seqRun_append cs (ws.take (ticksBefore ks m))
    (ws.drop (ticksBefore ks m)) ⟨st.childStates, 0, true⟩
  rw [hsplit, hform] at hfull
  have hkpos : ∀ l, l < m → 1 ≤ ks.getD l 0 := fun l hl => (hsucc l hl).1
  have hwin : ∀ i, i < m → (window ks ws i).length = ks.getD i 0 := by
    intro i hi
    apply window_length ks ws i (by omega)
    have := ticksBefore_mono ks (i + 1) m (by omega)
    omega
  have hchild : ∀ i, i < m →
      (∀ j, j + 1 < ks.getD i 0 → (outAt (cs.getD i Child.dummy)
        ((cs.getD i Child.dummy).init (st.childStates i)).1 (window ks ws i) j).value =
          Return.Running) ∧
      (outAt (cs.getD i Child.dummy) ((cs.getD i Child.dummy).init (st.childStates i)).1
        (window ks ws i) (ks.getD i 0 - 1)).value = Return.Success := by
    intro i hi
    exact (hsucc i hi).2 (st.childStates i) (window ks ws i) (by rw [hwin i hi])
  have hteq : ws.length - 1 = ticksBefore ks m + (f - 1) := by omega
  have hfin : outAtT (seqRun cs ⟨st.childStates, 0, true⟩ ws).2 (ws.length - 1) =
      outAt (cs.get ⟨m, hmc⟩)
        ((cs.get ⟨m, hmc⟩).init
          ((seqRun cs ⟨st.childStates, 0, true⟩ (ws.take (ticksBefore ks m))).1.childStates m)).1
        (ws.drop (ticksBefore ks m)) (f - 1) := by
    obtain ⟨hoB, _⟩ := hpropsB (f - 1) (by omega)
    rw [hteq, hfull]
    show outAtT ((seqRun cs ⟨st.childStates, 0, true⟩ (ws.take (ticksBefore ks m))).2 ++
      (seqRun cs ⟨_, m, true⟩ (ws.drop (ticksBefore ks m))).2)
      (ticksBefore ks m + (f - 1)) = _
    rw [outAtT_append_right _ _ _ (by omega)]
    have hsub : ticksBefore ks m + (f - 1) -
        (seqRun cs ⟨st.childStates, 0, true⟩ (ws.take (ticksBefore ks m))).2.length =
        f - 1 := by omega
    rw [hsub, hoB, if_pos (by omega : f - 1 + 1 = f)]
    exact forwardOut_fail _ _ _ hWf.2
  refine ⟨?_, ?_, ?_, ?_, ?_⟩
  · rw [hfull]
    show ((seqRun cs ⟨st.childStates, 0, true⟩ (ws.take (ticksBefore ks m))).2 ++
      (seqRun cs ⟨_, m, true⟩ (ws.drop (ticksBefore ks m))).2).length = ws.length
    rw [List.length_append, htrA, hlenB, hws]
  · rw [hfin, hgd, hfm]
  · rw [hfin]
    exact hWf.2
  · intro t ht
    by_cases htm : t < ticksBefore ks m
    · obtain ⟨i, hi, j, hj, rfl⟩ := ticksBefore_cover ks m t htm
      obtain ⟨hoA, _⟩ := hpropsA i j hi hj
      rw [window_take ks ws i m hi hmk] at hoA
      rw [hfull]
      show (outAtT ((seqRun cs ⟨st.childStates, 0, true⟩ (ws.take (ticksBefore ks m))).2 ++
        (seqRun cs ⟨_, m, true⟩ (ws.drop (ticksBefore ks m))).2)
        (ticksBefore ks i + j)).value = Return.Running
      rw [outAtT_append_left _ _ _ (by omega)]
      rw [hoA]
      by_cases hjk : j + 1 = ks.getD i 0
      · rw [if_pos hjk]
        unfold forwardOut
        rw [if_pos (show i + 1 < cs.length by omega)]
        have hjv : j = ks.getD i 0 - 1 := by omega
        subst hjv
        have hsv := (hchild i hi).2
        rw [if_neg (by rw [hsv]; simp)]
      · rw [if_neg hjk]
        exact (hchild i hi).1 j (by omega)
    · push_neg at htm
      have hj' : t - ticksBefore ks m < f := by omega
      have hjlt : t - ticksBefore ks m + 1 < f := by omega
      obtain ⟨hoB, _⟩ := hpropsB (t - ticksBefore ks m) hj'
      rw [hfull]
      show (outAtT ((seqRun cs ⟨st.childStates, 0, true⟩ (ws.take (ticksBefore ks m))).2 ++
        (seqRun cs ⟨_, m, true⟩ (ws.drop (ticksBefore ks m))).2) t).value = Return.Running
      rw [outAtT_append_right _ _ _ (by omega)]
      have hsub : t -
          (seqRun cs ⟨st.childStates, 0, true⟩ (ws.take (ticksBefore ks m))).2.length =
          t - ticksBefore ks m := by omega
      rw [hsub, hoB, if_neg (by omega : ¬ (t - ticksBefore ks m + 1 = f))]
      exact hWf.1 (t - ticksBefore ks m) hjlt
  · intro t e ht hmem
    rw [hfull] at hmem
    have hmem' : e ∈ evsAtT
        ((seqRun cs ⟨st.childStates, 0, true⟩ (ws.take (ticksBefore ks m))).2 ++
          (seqRun cs ⟨(seqRun cs ⟨st.childStates, 0, true⟩
            (ws.take (ticksBefore ks m))).1.childStates, m, true⟩
            (ws.drop (ticksBefore ks m))).2) t := hmem
    by_cases htm : t < ticksBefore ks m
    · obtain ⟨i, hi, j, hj, rfl⟩ := ticksBefore_cover ks m t htm
      obtain ⟨_, heA⟩ := hpropsA i j hi hj
      rw [evsAtT_append_left _ _ _ (by omega)] at hmem'
      rw [heA] at hmem'
      have := idx_of_mem_window_evs i j (ks.getD i 0) e hmem'
      omega
    · push_neg at htm
      have hj' : t - ticksBefore ks m < f := by omega
      obtain ⟨_, heB⟩ := hpropsB (t - ticksBefore ks m) hj'
      rw [evsAtT_append_right _ _ _ (by omega)] at hmem'
      have hsub : t -
          (seqRun cs ⟨st.childStates, 0, true⟩ (ws.take (ticksBefore ks m))).2.length =
          t - ticksBefore ks m := by omega
      rw [hsub, heB] at hmem'
      have := idx_of_mem_window_evs m (t - ticksBefore ks m) f e hmem'
      omega

/-- Witness for C2: a child that fails on its first tick, followed by a
child that is never reached; one tick of input. -/
theorem sequence_short_circuit_fail_witness :
    FailsAfter failNow 1 ∧
    (outAtT (seqRun [failNow, succNow]
      (seqInit ⟨fun _ => (), 0, true⟩).1 [sense0]).2 0).value = Return.Fail := by
  refine ⟨failNow_fails, ?_⟩
  have h := sequence_short_circuit_fail Unit [failNow, succNow] [] ⟨fun _ => (), 0, true⟩
    [sense0] 0 1 (by decide) (by decide)
    (by intro i hi; exact absurd hi (by omega))
    failNow_fails (by decide)
  exact h.2.2.1

/-- C6: on every iteration of the executor's loop the element's tick is
applied to the current SenseInfo and the simulated model then advances
`measured_x` by the returned actuate velocity times the fixed 100 ms
period (velocity × 0.1) and sets `measured_velocity` to that velocity;
the loop repeats exactly while the Outcome is Running, and on the first
terminal Outcome the element is finalized exactly once and the run
returns. -/
theorem executor_drive_loop (τ ε : Type) (be : BElem τ ε) (st : τ)
    (sense : SenseInfo) (fuel : ℕ) (evs : List (ExecEvent ε))
    (r : τ × SenseInfo × Outcome)
    (h : execLoop be fuel st sense = (evs, some r)) :
    ((execStep be st sense).2.1.measured_x =
      sense.measured_x + (execStep be st sense).2.2.1.actuate.velocity * (1 / 10)) ∧
    ((execStep be st sense).2.1.measured_velocity =
      (execStep be st sense).2.2.1.actuate.velocity) ∧
    (tickOuts evs ≠ [] ∧
      (∀ j oj, (tickOuts evs).get? j = some oj → j + 1 ≠ (tickOuts evs).length →
        oj.value = Return.Running) ∧
      (tickOuts evs).getLast? = some r.2.2 ∧
      r.2.2.value ≠ Return.Running ∧
      evs.countP ExecEvent.isFin = 1 ∧
      evs.getLast? = some ExecEvent.finEv ∧
      (tickSenses evs).get? 0 = some sense ∧
      (∀ j sj sj1 oj, (tickSenses evs).get? j = some sj →
        (tickSenses evs).get? (j + 1) = some sj1 →
        (tickOuts evs).get? j = some oj →
        sj1.measured_x = sj.measured_x + oj.actuate.velocity * (1 / 10) ∧
        sj1.measured_velocity = oj.actuate.velocity ∧
        sj1.ts = sj.ts + 100)) := by
  refine ⟨?_, rfl, execLoop_shape be fuel st sense evs r h⟩
  show sense.measured_x + (execStep be st sense).2.2.1.actuate.velocity * 100 / 1000 = _
  ring

/-- Witness for C6: a one-tick element driven to Success. -/
theorem executor_drive_loop_witness :
    execLoop succBE 1 () sense0 =
      ([ExecEvent.tickEv sense0 ⟨Return.Success, ⟨2⟩⟩ [], ExecEvent.finEv],
       some ((), (⟨2, 1 / 5, false, false, 100⟩ : SenseInfo), ⟨Return.Success, ⟨2⟩⟩)) ∧
    (tickOuts [ExecEvent.tickEv sense0 (⟨Return.Success, ⟨2⟩⟩ : Outcome) ([] : List Unit),
        ExecEvent.finEv]).getLast? = some ⟨Return.Success, ⟨2⟩⟩ := by
  have h : execLoop succBE 1 () sense0 =
      ([ExecEvent.tickEv sense0 ⟨Return.Success, ⟨2⟩⟩ [], ExecEvent.finEv],
       some ((), (⟨2, 1 / 5, false, false, 100⟩ : SenseInfo), ⟨Return.Success, ⟨2⟩⟩)) := by
    have hne : ¬ Return.Success = Return.Running := by decide
    simp only [execLoop, execStep, succBE, sense0]
    norm_num [hne]
  exact ⟨h, (executor_drive_loop Unit Unit succBE () sense0 1 _ _ h).2.2.2.2.1⟩

/-- C5: a SequenceElement constructed with an empty child list returns an
Outcome with value Fail on the first tick after initialize, with no child
lifecycle call of any kind (element.hpp lines 163-166). -/
theorem empty_sequence_first_tick_fails (σ : Type) (st : SeqState σ) (s : SenseInfo) :
    seqTick ([] : List (Child σ)) (seqInit st).1 s =
      ((seqInit st).1, ⟨Return.Fail, ⟨0⟩⟩, []) := by
  simp [seqTick, seqInit]

/-- C10: any tick of a SequenceElement whose child iterator is at or past
the end of the child list (as after the sequence has already produced its
terminal outcome for the last child) returns Fail with the
default-constructed zero-velocity ActuateCmd, performs no child
initialize/tick/finalize, and leaves the state unchanged. -/
theorem seq_tick_past_end_fails (σ : Type) (cs : List (Child σ)) (st : SeqState σ)
    (s : SenseInfo) (h : cs.length ≤ st.iter) :
    seqTick cs st s = (st, ⟨Return.Fail, ⟨0⟩⟩, []) := by
  have h' : ¬ st.iter < cs.length := not_lt.2 h
  simp [seqTick, h']

/-- Witness for C10: a one-child sequence whose iterator has advanced past
the last child. -/
theorem seq_tick_past_end_fails_witness :
    ([Child.dummy] : List (Child Unit)).length ≤ 1 ∧
    seqTick ([Child.dummy] : List (Child Unit)) ⟨fun _ => (), 1, true⟩ sense0 =
      (⟨fun _ => (), 1, true⟩, ⟨Return.Fail, ⟨0⟩⟩, []) :=
  ⟨by decide,
   seq_tick_past_end_fails Unit [Child.dummy] ⟨fun _ => (), 1, true⟩ sense0 (by decide)⟩

/-- C9: when the knee-jerk reflex is active and WalkToPosition has neither
reached its goal nor timed out, its tick keeps Running but commands zero
velocity (main.cpp lines 73-76). -/
theorem walk_knee_jerk_zero_velocity (me : WalkData) (s : SenseInfo)
    (hdist : 1 / 10 ≤ |me.goal_x - s.measured_x|)
    (htime : s.ts - me.init_ts ≤ 60000)
    (hknee : s.is_knee_jerking = true) :
    walkTick me s = (me, ⟨Return.Running, ⟨0⟩⟩) := by
  have h1 : ¬ |me.goal_x - s.measured_x| < 1 / 10 := not_lt.2 hdist
  have h2 : ¬ s.ts - me.init_ts > 60000 := not_lt.2 htime
  simp [walkTick, h1, h2, hknee]
  rw [← one_div]
  exact hdist

/-- Witness for C9: goal 4 from position 0 with an active knee-jerk. -/
theorem walk_knee_jerk_zero_velocity_witness :
    ((1 : ℚ) / 10 ≤ |(4 : ℚ) - 0| ∧ (0 : ℤ) - 0 ≤ 60000) ∧
    walkTick ⟨4, 0⟩ ⟨0, 0, false, true, 0⟩ = (⟨4, 0⟩, ⟨Return.Running, ⟨0⟩⟩) :=
  ⟨⟨by norm_num, by norm_num⟩,
   walk_knee_jerk_zero_velocity ⟨4, 0⟩ ⟨0, 0, false, true, 0⟩ (by norm_num)
     (by norm_num) rfl⟩

/-- C3: every MotionElement leaf activates, during initialize, exactly the
mask `get_reaction_defs()` — the OR-combination of its two declared
reaction flags (knee-jerk in bit 0, flinch in bit 1) — and releases the
identical mask during the matching finalize (the mask is a compile-time
constant of the leaf class, so no run-time state change can alter it); for
WalkToPosition ({knee-jerk: enabled, flinch: disabled}) the mask is
exactly the knee-jerk bit. -/
theorem reaction_mask_activate_release (δ : Type) (sp : MotionSpec δ)
    (st st' : MotionState δ) :
    (motionInit sp st).2.2 = [MotionEvent.activateCall sp.reactionDefs] ∧
    (motionFin sp st').2 = [MotionEvent.releaseCall sp.reactionDefs] ∧
    sp.reactionDefs =
      ((if sp.kneeJerkReaction = ReactionDef.enabled then 1 else 0) |||
        (if sp.flinchReaction = ReactionDef.enabled then 2 else 0)) ∧
    walkSpec.reactionDefs = 1 := by
  refine ⟨rfl, rfl, ?_, rfl⟩
  have hk := sp.kneeJerkSpecified
  have hf := sp.flinchSpecified
  cases hkc : sp.kneeJerkReaction <;> cases hfc : sp.flinchReaction <;>
    first
      | exact absurd hkc hk
      | exact absurd hfc hf
      | simp [MotionSpec.reactionDefs, hkc, hfc, ReactionDef.flagVal]

/-- C7 (walk-level and sequence-level): a WalkToPosition tick whose
SenseInfo timestamp is more than 60 s past the latched first-tick
timestamp, with the goal not yet reached, returns Fail; the containing
sequence (walk then stop, as in main.cpp) then returns Fail with walk's
actuate command on the same tick, and Stop's initialize is never called
(its events are only tick and finalize of child 0). -/
theorem walk_timeout_fails_sequence (g : ℚ) (t0 : ℤ) (sts : ℕ → ScenState)
    (s : SenseInfo)
    (hw : (sts 0).1 = ⟨false, ⟨g, t0⟩⟩)
    (hdist : 1 / 10 ≤ |g - s.measured_x|)
    (htime : 60000 < s.ts - t0) :
    (walkTick ⟨g, t0⟩ s).2.value = Return.Fail ∧
    (seqTick scenChildren ⟨sts, 0, false⟩ s).2.1.value = Return.Fail ∧
    (seqTick scenChildren ⟨sts, 0, false⟩ s).2.1.actuate =
      (walkTick ⟨g, t0⟩ s).2.actuate ∧
    (seqTick scenChildren ⟨sts, 0, false⟩ s).2.2 =
      [SeqEvent.tickE 0, SeqEvent.finE 0] := by
  have h1 : ¬ |g - s.measured_x| < 1 / 10 := not_lt.2 hdist
  have hwt : walkTick ⟨g, t0⟩ s =
      (⟨g, t0⟩, ⟨Return.Fail, ⟨if g - s.measured_x ≥ 0 then 1 else -1⟩⟩) := by
    simp [walkTick, h1, htime]
    rw [← one_div]
    exact hdist
  refine ⟨by simp [hwt], ?_⟩
  have hstep : seqTick scenChildren ⟨sts, 0, false⟩ s =
      (⟨updF sts 0 ((⟨false, ⟨g, t0⟩⟩ : MotionState WalkData), (sts 0).2), 1, true⟩,
       ⟨Return.Fail, ⟨if g - s.measured_x ≥ 0 then 1 else -1⟩⟩,
       [SeqEvent.tickE 0, SeqEvent.finE 0]) := by
    simp [seqTick, scenChildren, childL, motionChild, motionTick, motionFin, hw, hwt,
      forwardOut, walkSpec]
  simp [hstep, hwt]

/-- Witness for C7: goal 4 from position 0, 60.001 s after the latched
start. -/
theorem walk_timeout_fails_sequence_witness :
    ((1 : ℚ) / 10 ≤ |(4 : ℚ) - 0| ∧ (60000 : ℤ) < 60001 - 0) ∧
    (walkTick ⟨4, 0⟩ ⟨0, 0, false, false, 60001⟩).2.value = Return.Fail ∧
    (seqTick scenChildren
        ⟨fun _ => ((⟨false, ⟨4, 0⟩⟩ : MotionState WalkData), (⟨true, ()⟩ : MotionState Unit)), 0, false⟩
        ⟨0, 0, false, false, 60001⟩).2.2 = [SeqEvent.tickE 0, SeqEvent.finE 0] := by
  refine ⟨⟨by norm_num, by norm_num⟩, ?_, ?_⟩
  · exact (walk_timeout_fails_sequence 4 0
      (fun _ => ((⟨false, ⟨4, 0⟩⟩ : MotionState WalkData), (⟨true, ()⟩ : MotionState Unit)))
      ⟨0, 0, false, false, 60001⟩ rfl (by norm_num) (by norm_num)).1
  · exact (walk_timeout_fails_sequence 4 0
      (fun _ => ((⟨false, ⟨4, 0⟩⟩ : MotionState WalkData), (⟨true, ()⟩ : MotionState Unit)))
      ⟨0, 0, false, false, 60001⟩ rfl (by norm_num) (by norm_num)).2.2.2

theorem seqTickL_len {σ : Type} (d : σ) (cs : List (Child σ)) (st : SeqStateL σ)
    (s : SenseInfo) :
    (seqTickL d cs st s).1.childStatesL.length = st.childStatesL.length := by
  simp only [seqTickL]
  split_ifs <;> simp

theorem seqTick_absL {σ : Type} (d : σ) (cs : List (Child σ)) (st : SeqStateL σ)
    (s : SenseInfo) (hlen : cs.length ≤ st.childStatesL.length) :
    seqTick cs (absL d st) s =
      (absL d (seqTickL d cs st s).1, (seqTickL d cs st s).2) := by
  obtain ⟨L, i, nw⟩ := st
  by_cases h : i < cs.length
  · have hi : i < L.length := lt_of_lt_of_le h hlen
    have hsetM : ∀ (M : List σ) (x : σ), i < M.length →
        updF (fun j => M[j]?.getD d) i x = fun j => (M.set i x)[j]?.getD d := by
      intro M x hM
      funext j
      by_cases hj : j = i
      · subst hj
        simp [updF, List.getElem?_set_self, hM]
      · simp [updF, hj, List.getElem?_set_ne (Ne.symm hj)]
    have hget : ∀ (x : σ), (L.set i x).getD i d = x := by
      intro x
      simp [List.getD, List.getElem?_set_self, hi]
    have hupd : ∀ (F : ℕ → σ) (x : σ), updF F i x i = x := by
      intro F x
      simp [updF]
    have hcol : ∀ (F : ℕ → σ) (a b : σ), updF (updF F i a) i b = updF F i b := by
      intro F a b
      funext j
      simp only [updF]
      split_ifs <;> rfl
    cases nw
    · simp only [seqTick, seqTickL, absL]
      rw [dif_pos h, dif_pos h]
      simp only [Bool.false_eq_true, if_false]
      split_ifs with hr
      · simp [hcol]
        exact hsetM L _ hi
      · simp [hcol]
        exact hsetM L _ hi
    · simp only [seqTick, seqTickL, absL]
      rw [dif_pos h, dif_pos h]
      simp only [if_true]
      rw [hget, hupd]
      split_ifs with hr
      · simp [hcol]
        exact hsetM L _ hi
      · simp [hcol]
        exact hsetM L _ hi
  · simp [seqTick, seqTickL, absL, h]

theorem execLoop_absL {σ : Type} (d : σ) (cs : List (Child σ)) (fuel : ℕ) :
    ∀ (st : SeqStateL σ) (sense : SenseInfo),
      cs.length ≤ st.childStatesL.length →
      (execLoop (⟨seqInit, fun st s => seqTick cs st s, id⟩ : BElem (SeqState σ) SeqEvent)
          fuel (absL d st) sense).1 =
        (execLoop (⟨fun st => (⟨st.childStatesL, 0, true⟩, ⟨"Sequence"⟩),
            fun st s => seqTickL d cs st s, id⟩ : BElem (SeqStateL σ) SeqEvent)
          fuel st sense).1 ∧
      (execLoop (⟨seqInit, fun st s => seqTick cs st s, id⟩ : BElem (SeqState σ) SeqEvent)
          fuel (absL d st) sense).2.map (fun r => (r.2.1, r.2.2)) =
        (execLoop (⟨fun st => (⟨st.childStatesL, 0, true⟩, ⟨"Sequence"⟩),
            fun st s => seqTickL d cs st s, id⟩ : BElem (SeqStateL σ) SeqEvent)
          fuel st sense).2.map (fun r => (r.2.1, r.2.2)) := by
  induction fuel with
  | zero => intro st sense _; exact ⟨rfl, rfl⟩
  | succ n ih =>
    intro st sense hlen
    rcases hX : seqTickL d cs st sense with ⟨st2, out, evs⟩
    have hstep : seqTick cs (absL d st) sense = (absL d st2, out, evs) := by
      rw [seqTick_absL d cs st sense hlen, hX]
    have hlen2 : cs.length ≤ st2.childStatesL.length := by
      have hl := seqTickL_len d cs st sense
      rw [hX] at hl
      rw [hl]
      exact hlen
    simp only [execLoop, execStep, hstep, hX]
    by_cases ho : out.value = Return.Running
    · obtain ⟨h1, h2⟩ := ih st2
        ⟨out.actuate.velocity, sense.measured_x + out.actuate.velocity * 100 / 1000,
         sense.is_flinching, sense.is_knee_jerking, sense.ts + 100⟩ hlen2
      simp only [ho, if_true, if_pos, List.cons.injEq]
      exact ⟨⟨trivial, h1⟩, h2⟩
    · simp [ho]


/-! Single-step evaluation lemmas for the list-backed run: lemma number k
rewrites loop iteration k of `scenRunL` into its tick event and the
recursive call on the successor state. -/

theorem c8e0 : execLoop scenBEL 100 (⟨[(⟨true, ⟨4, 0⟩⟩, ⟨true, ()⟩), (⟨true, ⟨4, 0⟩⟩, ⟨true, ()⟩)], 0, true⟩) (⟨0, 0, false, false, 0⟩) =
    (fun p => (ExecEvent.tickEv (⟨0, 0, false, false, 0⟩) (⟨Return.Running, ⟨1⟩⟩) [SeqEvent.initE 0, SeqEvent.tickE 0] :: p.1, p.2))
      (execLoop scenBEL 99 (⟨[(⟨false, ⟨4, 0⟩⟩, ⟨true, ()⟩), (⟨true, ⟨4, 0⟩⟩, ⟨true, ()⟩)], 0, false⟩) (⟨1, 1/10, false, false, 100⟩)) := by
  with_unfolding_all rfl

theorem c8e1 : execLoop scenBEL 99 (⟨[(⟨false, ⟨4, 0⟩⟩, ⟨true, ()⟩), (⟨true, ⟨4, 0⟩⟩, ⟨true, ()⟩)], 0, false⟩) (⟨1, 1/10, false, false, 100⟩) =
    (fun p => (ExecEvent.tickEv (⟨1, 1/10, false, false, 100⟩) (⟨Return.Running, ⟨1⟩⟩) [SeqEvent.tickE 0] :: p.1, p.2))
      (execLoop scenBEL 98 (⟨[(⟨false, ⟨4, 0⟩⟩, ⟨true, ()⟩), (⟨true, ⟨4, 0⟩⟩, ⟨true, ()⟩)], 0, false⟩) (⟨1, 2/10, false, false, 200⟩)) := by
  with_unfolding_all rfl

theorem c8e2 : execLoop scenBEL 98 (⟨[(⟨false, ⟨4, 0⟩⟩, ⟨true, ()⟩), (⟨true, ⟨4, 0⟩⟩, ⟨true, ()⟩)], 0, false⟩) (⟨1, 2/10, false, false, 200⟩) =
    (fun p => (ExecEvent.tickEv (⟨1, 2/10, false, false, 200⟩) (⟨Return.Running, ⟨1⟩⟩) [SeqEvent.tickE 0] :: p.1, p.2))
      (execLoop scenBEL 97 (⟨[(⟨false, ⟨4, 0⟩⟩, ⟨true, ()⟩), (⟨true, ⟨4, 0⟩⟩, ⟨true, ()⟩)], 0, false⟩) (⟨1, 3/10, false, false, 300⟩)) := by
  with_unfolding_all rfl

theorem c8e3 : execLoop scenBEL 97 (⟨[(⟨false, ⟨4, 0⟩⟩, ⟨true, ()⟩), (⟨true, ⟨4, 0⟩⟩, ⟨true, ()⟩)], 0, false⟩) (⟨1, 3/10, false, false, 300⟩) =
    (fun p => (ExecEvent.tickEv (⟨1, 3/10, false, false, 300⟩) (⟨Return.Running, ⟨1⟩⟩) [SeqEvent.tickE 0] :: p.1, p.2))
      (execLoop scenBEL 96 (⟨[(⟨false, ⟨4, 0⟩⟩, ⟨true, ()⟩), (⟨true, ⟨4, 0⟩⟩, ⟨true, ()⟩)], 0, false⟩) (⟨1, 4/10, false, false, 400⟩)) := by
  with_unfolding_all rfl

theorem c8e4 : execLoop scenBEL 96 (⟨[(⟨false, ⟨4, 0⟩⟩, ⟨true, ()⟩), (⟨true, ⟨4, 0⟩⟩, ⟨true, ()⟩)], 0, false⟩) (⟨1, 4/10, false, false, 400⟩) =
    (fun p => (ExecEvent.tickEv (⟨1, 4/10, false, false, 400⟩) (⟨Return.Running, ⟨1⟩⟩) [SeqEvent.tickE 0] :: p.1, p.2))
      (execLoop scenBEL 95 (⟨[(⟨false, ⟨4, 0⟩⟩, ⟨true, ()⟩), (⟨true, ⟨4, 0⟩⟩, ⟨true, ()⟩)], 0, false⟩) (⟨1, 5/10, false, false, 500⟩)) := by
  with_unfolding_all rfl

theorem c8e5 : execLoop scenBEL 95 (⟨[(⟨false, ⟨4, 0⟩⟩, ⟨true, ()⟩), (⟨true, ⟨4, 0⟩⟩, ⟨true, ()⟩)], 0, false⟩) (⟨1, 5/10, false, false, 500⟩) =
    (fun p => (ExecEvent.tickEv (⟨1, 5/10, false, false, 500⟩) (⟨Return.Running, ⟨1⟩⟩) [SeqEvent.tickE 0] :: p.1, p.2))
      (execLoop scenBEL 94 (⟨[(⟨false, ⟨4, 0⟩⟩, ⟨true, ()⟩), (⟨true, ⟨4, 0⟩⟩, ⟨true, ()⟩)], 0, false⟩) (⟨1, 6/10, false, false, 600⟩)) := by
  with_unfolding_all rfl

theorem c8e6 : execLoop scenBEL 94 (⟨[(⟨false, ⟨4, 0⟩⟩, ⟨true, ()⟩), (⟨true, ⟨4, 0⟩⟩, ⟨true, ()⟩)], 0, false⟩) (⟨1, 6/10, false, false, 600⟩) =
    (fun p => (ExecEvent.tickEv (⟨1, 6/10, false, false, 600⟩) (⟨Return.Running, ⟨1⟩⟩) [SeqEvent.tickE 0] :: p.1, p.2))
      (execLoop scenBEL 93 (⟨[(⟨false, ⟨4, 0⟩⟩, ⟨true, ()⟩), (⟨true, ⟨4, 0⟩⟩, ⟨true, ()⟩)], 0, false⟩) (⟨1, 7/10, false, false, 700⟩)) := by
  with_unfolding_all rfl

theorem c8e7 : execLoop scenBEL 93 (⟨[(⟨false, ⟨4, 0⟩⟩, ⟨true, ()⟩), (⟨true, ⟨4, 0⟩⟩, ⟨true, ()⟩)], 0, false⟩) (⟨1, 7/10, false, false, 700⟩) =
    (fun p => (ExecEvent.tickEv (⟨1, 7/10, false, false, 700⟩) (⟨Return.Running, ⟨1⟩⟩) [SeqEvent.tickE 0] :: p.1, p.2))
      (execLoop scenBEL 92 (⟨[(⟨false, ⟨4, 0⟩⟩, ⟨true, ()⟩), (⟨true, ⟨4, 0⟩⟩, ⟨true, ()⟩)], 0, false⟩) (⟨1, 8/10, false, false, 800⟩)) := by
  with_unfolding_all rfl

theorem c8e8 : execLoop scenBEL 92 (⟨[(⟨false, ⟨4, 0⟩⟩, ⟨true, ()⟩), (⟨true, ⟨4, 0⟩⟩, ⟨true, ()⟩)], 0, false⟩) (⟨1, 8/10, false, false, 800⟩) =
    (fun p => (ExecEvent.tickEv (⟨1, 8/10, false, false, 800⟩) (⟨Return.Running, ⟨1⟩⟩) [SeqEvent.tickE 0] :: p.1, p.2))
      (execLoop scenBEL 91 (⟨[(⟨false, ⟨4, 0⟩⟩, ⟨true, ()⟩), (⟨true, ⟨4, 0⟩⟩, ⟨true, ()⟩)], 0, false⟩) (⟨1, 9/10, false, false, 900⟩)) := by
  with_unfolding_all rfl

theorem c8e9 : execLoop scenBEL 91 (⟨[(⟨false, ⟨4, 0⟩⟩, ⟨true, ()⟩), (⟨true, ⟨4, 0⟩⟩, ⟨true, ()⟩)], 0, false⟩) (⟨1, 9/10, false, false, 900⟩) =
    (fun p => (ExecEvent.tickEv (⟨1, 9/10, false, false, 900⟩) (⟨Return.Running, ⟨1⟩⟩) [SeqEvent.tickE 0] :: p.1, p.2))
      (execLoop scenBEL 90 (⟨[(⟨false, ⟨4, 0⟩⟩, ⟨true, ()⟩), (⟨true, ⟨4, 0⟩⟩, ⟨true, ()⟩)], 0, false⟩) (⟨1, 10/10, false, false, 1000⟩)) := by
  with_unfolding_all rfl

theorem c8e10 : execLoop scenBEL 90 (⟨[(⟨false, ⟨4, 0⟩⟩, ⟨true, ()⟩), (⟨true, ⟨4, 0⟩⟩, ⟨true, ()⟩)], 0, false⟩) (⟨1, 10/10, false, false, 1000⟩) =
    (fun p => (ExecEvent.tickEv (⟨1, 10/10, false, false, 1000⟩) (⟨Return.Running, ⟨1⟩⟩) [SeqEvent.tickE 0] :: p.1, p.2))
      (execLoop scenBEL 89 (⟨[(⟨false, ⟨4, 0⟩⟩, ⟨true, ()⟩), (⟨true, ⟨4, 0⟩⟩, ⟨true, ()⟩)], 0, false⟩) (⟨1, 11/10, false, false, 1100⟩)) := by
  with_unfolding_all rfl

theorem c8e11 : execLoop scenBEL 89 (⟨[(⟨false, ⟨4, 0⟩⟩, ⟨true, ()⟩), (⟨true, ⟨4, 0⟩⟩, ⟨true, ()⟩)], 0, false⟩) (⟨1, 11/10, false, false, 1100⟩) =
    (fun p => (ExecEvent.tickEv (⟨1, 11/10, false, false, 1100⟩) (⟨Return.Running, ⟨1⟩⟩) [SeqEvent.tickE 0] :: p.1, p.2))
      (execLoop scenBEL 88 (⟨[(⟨false, ⟨4, 0⟩⟩, ⟨true, ()⟩), (⟨true, ⟨4, 0⟩⟩, ⟨true, ()⟩)], 0, false⟩) (⟨1, 12/10, false, false, 1200⟩)) := by
  with_unfolding_all rfl

theorem c8e12 : execLoop scenBEL 88 (⟨[(⟨false, ⟨4, 0⟩⟩, ⟨true, ()⟩), (⟨true, ⟨4, 0⟩⟩, ⟨true, ()⟩)], 0, false⟩) (⟨1, 12/10, false, false, 1200⟩) =
    (fun p => (ExecEvent.tickEv (⟨1, 12/10, false, false, 1200⟩) (⟨Return.Running, ⟨1⟩⟩) [SeqEvent.tickE 0] :: p.1, p.2))
      (execLoop scenBEL 87 (⟨[(⟨false, ⟨4, 0⟩⟩, ⟨true, ()⟩), (⟨true, ⟨4, 0⟩⟩, ⟨true, ()⟩)], 0, false⟩) (⟨1, 13/10, false, false, 1300⟩)) := by
  with_unfolding_all rfl

theorem c8e13 : execLoop scenBEL 87 (⟨[(⟨false, ⟨4, 0⟩⟩, ⟨true, ()⟩), (⟨true, ⟨4, 0⟩⟩, ⟨true, ()⟩)], 0, false⟩) (⟨1, 13/10, false, false, 1300⟩) =
    (fun p => (ExecEvent.tickEv (⟨1, 13/10, false, false, 1300⟩) (⟨Return.Running, ⟨1⟩⟩) [SeqEvent.tickE 0] :: p.1, p.2))
      (execLoop scenBEL 86 (⟨[(⟨false, ⟨4, 0⟩⟩, ⟨true, ()⟩), (⟨true, ⟨4, 0⟩⟩, ⟨true, ()⟩)], 0, false⟩) (⟨1, 14/10, false, false, 1400⟩)) := by
  with_unfolding_all rfl

theorem c8e14 : execLoop scenBEL 86 (⟨[(⟨false, ⟨4, 0⟩⟩, ⟨true, ()⟩), (⟨true, ⟨4, 0⟩⟩, ⟨true, ()⟩)], 0, false⟩) (⟨1, 14/10, false, false, 1400⟩) =
    (fun p => (ExecEvent.tickEv (⟨1, 14/10, false, false, 1400⟩) (⟨Return.Running, ⟨1⟩⟩) [SeqEvent.tickE 0] :: p.1, p.2))
      (execLoop scenBEL 85 (⟨[(⟨false, ⟨4, 0⟩⟩, ⟨true, ()⟩), (⟨true, ⟨4, 0⟩⟩, ⟨true, ()⟩)], 0, false⟩) (⟨1, 15/10, false, false, 1500⟩)) := by
  with_unfolding_all rfl

theorem c8e15 : execLoop scenBEL 85 (⟨[(⟨false, ⟨4, 0⟩⟩, ⟨true, ()⟩), (⟨true, ⟨4, 0⟩⟩, ⟨true, ()⟩)], 0, false⟩) (⟨1, 15/10, false, false, 1500⟩) =
    (fun p => (ExecEvent.tickEv (⟨1, 15/10, false, false, 1500⟩) (⟨Return.Running, ⟨1⟩⟩) [SeqEvent.tickE 0] :: p.1, p.2))
      (execLoop scenBEL 84 (⟨[(⟨false, ⟨4, 0⟩⟩, ⟨true, ()⟩), (⟨true, ⟨4, 0⟩⟩, ⟨true, ()⟩)], 0, false⟩) (⟨1, 16/10, false, false, 1600⟩)) := by
  with_unfolding_all rfl

theorem c8e16 : execLoop scenBEL 84 (⟨[(⟨false, ⟨4, 0⟩⟩, ⟨true, ()⟩), (⟨true, ⟨4, 0⟩⟩, ⟨true, ()⟩)], 0, false⟩) (⟨1, 16/10, false, false, 1600⟩) =
    (fun p => (ExecEvent.tickEv (⟨1, 16/10, false, false, 1600⟩) (⟨Return.Running, ⟨1⟩⟩) [SeqEvent.tickE 0] :: p.1, p.2))
      (execLoop scenBEL 83 (⟨[(⟨false, ⟨4, 0⟩⟩, ⟨true, ()⟩), (⟨true, ⟨4, 0⟩⟩, ⟨true, ()⟩)], 0, false⟩) (⟨1, 17/10, false, false, 1700⟩)) := by
  with_unfolding_all rfl

theorem c8e17 : execLoop scenBEL 83 (⟨[(⟨false, ⟨4, 0⟩⟩, ⟨true, ()⟩), (⟨true, ⟨4, 0⟩⟩, ⟨true, ()⟩)], 0, false⟩) (⟨1, 17/10, false, false, 1700⟩) =
    (fun p => (ExecEvent.tickEv (⟨1, 17/10, false, false, 1700⟩) (⟨Return.Running, ⟨1⟩⟩) [SeqEvent.tickE 0] :: p.1, p.2))
      (execLoop scenBEL 82 (⟨[(⟨false, ⟨4, 0⟩⟩, ⟨true, ()⟩), (⟨true, ⟨4, 0⟩⟩, ⟨true, ()⟩)], 0, false⟩) (⟨1, 18/10, false, false, 1800⟩)) := by
  with_unfolding_all rfl

theorem c8e18 : execLoop scenBEL 82 (⟨[(⟨false, ⟨4, 0⟩⟩, ⟨true, ()⟩), (⟨true, ⟨4, 0⟩⟩, ⟨true, ()⟩)], 0, false⟩) (⟨1, 18/10, false, false, 1800⟩) =
    (fun p => (ExecEvent.tickEv (⟨1, 18/10, false, false, 1800⟩) (⟨Return.Running, ⟨1⟩⟩) [SeqEvent.tickE 0] :: p.1, p.2))
      (execLoop scenBEL 81 (⟨[(⟨false, ⟨4, 0⟩⟩, ⟨true, ()⟩), (⟨true, ⟨4, 0⟩⟩, ⟨true, ()⟩)], 0, false⟩) (⟨1, 19/10, false, false, 1900⟩)) := by
  with_unfolding_all rfl

theorem c8e19 : execLoop scenBEL 81 (⟨[(⟨false, ⟨4, 0⟩⟩, ⟨true, ()⟩), (⟨true, ⟨4, 0⟩⟩, ⟨true, ()⟩)], 0, false⟩) (⟨1, 19/10, false, false, 1900⟩) =
    (fun p => (ExecEvent.tickEv (⟨1, 19/10, false, false, 1900⟩) (⟨Return.Running, ⟨1⟩⟩) [SeqEvent.tickE 0] :: p.1, p.2))
      (execLoop scenBEL 80 (⟨[(⟨false, ⟨4, 0⟩⟩, ⟨true, ()⟩), (⟨true, ⟨4, 0⟩⟩, ⟨true, ()⟩)], 0, false⟩) (⟨1, 20/10, false, false, 2000⟩)) := by
  with_unfolding_all rfl

theorem c8e20 : execLoop scenBEL 80 (⟨[(⟨false, ⟨4, 0⟩⟩, ⟨true, ()⟩), (⟨true, ⟨4, 0⟩⟩, ⟨true, ()⟩)], 0, false⟩) (⟨1, 20/10, false, false, 2000⟩) =
    (fun p => (ExecEvent.tickEv (⟨1, 20/10, false, false, 2000⟩) (⟨Return.Running, ⟨1⟩⟩) [SeqEvent.tickE 0] :: p.1, p.2))
      (execLoop scenBEL 79 (⟨[(⟨false, ⟨4, 0⟩⟩, ⟨true, ()⟩), (⟨true, ⟨4, 0⟩⟩, ⟨true, ()⟩)], 0, false⟩) (⟨1, 21/10, false, false, 2100⟩)) := by
  with_unfolding_all rfl

theorem c8e21 : execLoop scenBEL 79 (⟨[(⟨false, ⟨4, 0⟩⟩, ⟨true, ()⟩), (⟨true, ⟨4, 0⟩⟩, ⟨true, ()⟩)], 0, false⟩) (⟨1, 21/10, false, false, 2100⟩) =
    (fun p => (ExecEvent.tickEv (⟨1, 21/10, false, false, 2100⟩) (⟨Return.Running, ⟨1⟩⟩) [SeqEvent.tickE 0] :: p.1, p.2))
      (execLoop scenBEL 78 (⟨[(⟨false, ⟨4, 0⟩⟩, ⟨true, ()⟩), (⟨true, ⟨4, 0⟩⟩, ⟨true, ()⟩)], 0, false⟩) (⟨1, 22/10, false, false, 2200⟩)) := by
  with_unfolding_all rfl

theorem c8e22 : execLoop scenBEL 78 (⟨[(⟨false, ⟨4, 0⟩⟩, ⟨true, ()⟩), (⟨true, ⟨4, 0⟩⟩, ⟨true, ()⟩)], 0, false⟩) (⟨1, 22/10, false, false, 2200⟩) =
    (fun p => (ExecEvent.tickEv (⟨1, 22/10, false, false, 2200⟩) (⟨Return.Running, ⟨1⟩⟩) [SeqEvent.tickE 0] :: p.1, p.2))
      (execLoop scenBEL 77 (⟨[(⟨false, ⟨4, 0⟩⟩, ⟨true, ()⟩), (⟨true, ⟨4, 0⟩⟩, ⟨true, ()⟩)], 0, false⟩) (⟨1, 23/10, false, false, 2300⟩)) := by
  with_unfolding_all rfl

theorem c8e23 : execLoop scenBEL 77 (⟨[(⟨false, ⟨4, 0⟩⟩, ⟨true, ()⟩), (⟨true, ⟨4, 0⟩⟩, ⟨true, ()⟩)], 0, false⟩) (⟨1, 23/10, false, false, 2300⟩) =
    (fun p => (ExecEvent.tickEv (⟨1, 23/10, false, false, 2300⟩) (⟨Return.Running, ⟨1⟩⟩) [SeqEvent.tickE 0] :: p.1, p.2))
      (execLoop scenBEL 76 (⟨[(⟨false, ⟨4, 0⟩⟩, ⟨true, ()⟩), (⟨true, ⟨4, 0⟩⟩, ⟨true, ()⟩)], 0, false⟩) (⟨1, 24/10, false, false, 2400⟩)) := by
  with_unfolding_all rfl

theorem c8e24 : execLoop scenBEL 76 (⟨[(⟨false, ⟨4, 0⟩⟩, ⟨true, ()⟩), (⟨true, ⟨4, 0⟩⟩, ⟨true, ()⟩)], 0, false⟩) (⟨1, 24/10, false, false, 2400⟩) =
    (fun p => (ExecEvent.tickEv (⟨1, 24/10, false, false, 2400⟩) (⟨Return.Running, ⟨1⟩⟩) [SeqEvent.tickE 0] :: p.1, p.2))
      (execLoop scenBEL 75 (⟨[(⟨false, ⟨4, 0⟩⟩, ⟨true, ()⟩), (⟨true, ⟨4, 0⟩⟩, ⟨true, ()⟩)], 0, false⟩) (⟨1, 25/10, false, false, 2500⟩)) := by
  with_unfolding_all rfl

theorem c8e25 : execLoop scenBEL 75 (⟨[(⟨false, ⟨4, 0⟩⟩, ⟨true, ()⟩), (⟨true, ⟨4, 0⟩⟩, ⟨true, ()⟩)], 0, false⟩) (⟨1, 25/10, false, false, 2500⟩) =
    (fun p => (ExecEvent.tickEv (⟨1, 25/10, false, false, 2500⟩) (⟨Return.Running, ⟨1⟩⟩) [SeqEvent.tickE 0] :: p.1, p.2))
      (execLoop scenBEL 74 (⟨[(⟨false, ⟨4, 0⟩⟩, ⟨true, ()⟩), (⟨true, ⟨4, 0⟩⟩, ⟨true, ()⟩)], 0, false⟩) (⟨1, 26/10, false, false, 2600⟩)) := by
  with_unfolding_all rfl

theorem c8e26 : execLoop scenBEL 74 (⟨[(⟨false, ⟨4, 0⟩⟩, ⟨true, ()⟩), (⟨true, ⟨4, 0⟩⟩, ⟨true, ()⟩)], 0, false⟩) (⟨1, 26/10, false, false, 2600⟩) =
    (fun p => (ExecEvent.tickEv (⟨1, 26/10, false, false, 2600⟩) (⟨Return.Running, ⟨1⟩⟩) [SeqEvent.tickE 0] :: p.1, p.2))
      (execLoop scenBEL 73 (⟨[(⟨false, ⟨4, 0⟩⟩, ⟨true, ()⟩), (⟨true, ⟨4, 0⟩⟩, ⟨true, ()⟩)], 0, false⟩) (⟨1, 27/10, false, false, 2700⟩)) := by
  with_unfolding_all rfl

theorem c8e27 : execLoop scenBEL 73 (⟨[(⟨false, ⟨4, 0⟩⟩, ⟨true, ()⟩), (⟨true, ⟨4, 0⟩⟩, ⟨true, ()⟩)], 0, false⟩) (⟨1, 27/10, false, false, 2700⟩) =
    (fun p => (ExecEvent.tickEv (⟨1, 27/10, false, false, 2700⟩) (⟨Return.Running, ⟨1⟩⟩) [SeqEvent.tickE 0] :: p.1, p.2))
      (execLoop scenBEL 72 (⟨[(⟨false, ⟨4, 0⟩⟩, ⟨true, ()⟩), (⟨true, ⟨4, 0⟩⟩, ⟨true, ()⟩)], 0, false⟩) (⟨1, 28/10, false, false, 2800⟩)) := by
  with_unfolding_all rfl

theorem c8e28 : execLoop scenBEL 72 (⟨[(⟨false, ⟨4, 0⟩⟩, ⟨true, ()⟩), (⟨true, ⟨4, 0⟩⟩, ⟨true, ()⟩)], 0, false⟩) (⟨1, 28/10, false, false, 2800⟩) =
    (fun p => (ExecEvent.tickEv (⟨1, 28/10, false, false, 2800⟩) (⟨Return.Running, ⟨1⟩⟩) [SeqEvent.tickE 0] :: p.1, p.2))
      (execLoop scenBEL 71 (⟨[(⟨false, ⟨4, 0⟩⟩, ⟨true, ()⟩), (⟨true, ⟨4, 0⟩⟩, ⟨true, ()⟩)], 0, false⟩) (⟨1, 29/10, false, false, 2900⟩)) := by
  with_unfolding_all rfl

theorem c8e29 : execLoop scenBEL 71 (⟨[(⟨false, ⟨4, 0⟩⟩, ⟨true, ()⟩), (⟨true, ⟨4, 0⟩⟩, ⟨true, ()⟩)], 0, false⟩) (⟨1, 29/10, false, false, 2900⟩) =
    (fun p => (ExecEvent.tickEv (⟨1, 29/10, false, false, 2900⟩) (⟨Return.Running, ⟨1⟩⟩) [SeqEvent.tickE 0] :: p.1, p.2))
      (execLoop scenBEL 70 (⟨[(⟨false, ⟨4, 0⟩⟩, ⟨true, ()⟩), (⟨true, ⟨4, 0⟩⟩, ⟨true, ()⟩)], 0, false⟩) (⟨1, 30/10, false, false, 3000⟩)) := by
  with_unfolding_all rfl

theorem c8e30 : execLoop scenBEL 70 (⟨[(⟨false, ⟨4, 0⟩⟩, ⟨true, ()⟩), (⟨true, ⟨4, 0⟩⟩, ⟨true, ()⟩)], 0, false⟩) (⟨1, 30/10, false, false, 3000⟩) =
    (fun p => (ExecEvent.tickEv (⟨1, 30/10, false, false, 3000⟩) (⟨Return.Running, ⟨1⟩⟩) [SeqEvent.tickE 0] :: p.1, p.2))
      (execLoop scenBEL 69 (⟨[(⟨false, ⟨4, 0⟩⟩, ⟨true, ()⟩), (⟨true, ⟨4, 0⟩⟩, ⟨true, ()⟩)], 0, false⟩) (⟨1, 31/10, false, false, 3100⟩)) := by
  with_unfolding_all rfl

theorem c8e31 : execLoop scenBEL 69 (⟨[(⟨false, ⟨4, 0⟩⟩, ⟨true, ()⟩), (⟨true, ⟨4, 0⟩⟩, ⟨true, ()⟩)], 0, false⟩) (⟨1, 31/10, false, false, 3100⟩) =
    (fun p => (ExecEvent.tickEv (⟨1, 31/10, false, false, 3100⟩) (⟨Return.Running, ⟨1⟩⟩) [SeqEvent.tickE 0] :: p.1, p.2))
      (execLoop scenBEL 68 (⟨[(⟨false, ⟨4, 0⟩⟩, ⟨true, ()⟩), (⟨true, ⟨4, 0⟩⟩, ⟨true, ()⟩)], 0, false⟩) (⟨1, 32/10, false, false, 3200⟩)) := by
  with_unfolding_all rfl

theorem c8e32 : execLoop scenBEL 68 (⟨[(⟨false, ⟨4, 0⟩⟩, ⟨true, ()⟩), (⟨true, ⟨4, 0⟩⟩, ⟨true, ()⟩)], 0, false⟩) (⟨1, 32/10, false, false, 3200⟩) =
    (fun p => (ExecEvent.tickEv (⟨1, 32/10, false, false, 3200⟩) (⟨Return.Running, ⟨1⟩⟩) [SeqEvent.tickE 0] :: p.1, p.2))
      (execLoop scenBEL 67 (⟨[(⟨false, ⟨4, 0⟩⟩, ⟨true, ()⟩), (⟨true, ⟨4, 0⟩⟩, ⟨true, ()⟩)], 0, false⟩) (⟨1, 33/10, false, false, 3300⟩)) := by
  with_unfolding_all rfl

theorem c8e33 : execLoop scenBEL 67 (⟨[(⟨false, ⟨4, 0⟩⟩, ⟨true, ()⟩), (⟨true, ⟨4, 0⟩⟩, ⟨true, ()⟩)], 0, false⟩) (⟨1, 33/10, false, false, 3300⟩) =
    (fun p => (ExecEvent.tickEv (⟨1, 33/10, false, false, 3300⟩) (⟨Return.Running, ⟨1⟩⟩) [SeqEvent.tickE 0] :: p.1, p.2))
      (execLoop scenBEL 66 (⟨[(⟨false, ⟨4, 0⟩⟩, ⟨true, ()⟩), (⟨true, ⟨4, 0⟩⟩, ⟨true, ()⟩)], 0, false⟩) (⟨1, 34/10, false, false, 3400⟩)) := by
  with_unfolding_all rfl

theorem c8e34 : execLoop scenBEL 66 (⟨[(⟨false, ⟨4, 0⟩⟩, ⟨true, ()⟩), (⟨true, ⟨4, 0⟩⟩, ⟨true, ()⟩)], 0, false⟩) (⟨1, 34/10, false, false, 3400⟩) =
    (fun p => (ExecEvent.tickEv (⟨1, 34/10, false, false, 3400⟩) (⟨Return.Running, ⟨1⟩⟩) [SeqEvent.tickE 0] :: p.1, p.2))
      (execLoop scenBEL 65 (⟨[(⟨false, ⟨4, 0⟩⟩, ⟨true, ()⟩), (⟨true, ⟨4, 0⟩⟩, ⟨true, ()⟩)], 0, false⟩) (⟨1, 35/10, false, false, 3500⟩)) := by
  with_unfolding_all rfl

theorem c8e35 : execLoop scenBEL 65 (⟨[(⟨false, ⟨4, 0⟩⟩, ⟨true, ()⟩), (⟨true, ⟨4, 0⟩⟩, ⟨true, ()⟩)], 0, false⟩) (⟨1, 35/10, false, false, 3500⟩) =
    (fun p => (ExecEvent.tickEv (⟨1, 35/10, false, false, 3500⟩) (⟨Return.Running, ⟨1⟩⟩) [SeqEvent.tickE 0] :: p.1, p.2))
      (execLoop scenBEL 64 (⟨[(⟨false, ⟨4, 0⟩⟩, ⟨true, ()⟩), (⟨true, ⟨4, 0⟩⟩, ⟨true, ()⟩)], 0, false⟩) (⟨1, 36/10, false, false, 3600⟩)) := by
  with_unfolding_all rfl

theorem c8e36 : execLoop scenBEL 64 (⟨[(⟨false, ⟨4, 0⟩⟩, ⟨true, ()⟩), (⟨true, ⟨4, 0⟩⟩, ⟨true, ()⟩)], 0, false⟩) (⟨1, 36/10, false, false, 3600⟩) =
    (fun p => (ExecEvent.tickEv (⟨1, 36/10, false, false, 3600⟩) (⟨Return.Running, ⟨1⟩⟩) [SeqEvent.tickE 0] :: p.1, p.2))
      (execLoop scenBEL 63 (⟨[(⟨false, ⟨4, 0⟩⟩, ⟨true, ()⟩), (⟨true, ⟨4, 0⟩⟩, ⟨true, ()⟩)], 0, false⟩) (⟨1, 37/10, false, false, 3700⟩)) := by
  with_unfolding_all rfl

theorem c8e37 : execLoop scenBEL 63 (⟨[(⟨false, ⟨4, 0⟩⟩, ⟨true, ()⟩), (⟨true, ⟨4, 0⟩⟩, ⟨true, ()⟩)], 0, false⟩) (⟨1, 37/10, false, false, 3700⟩) =
    (fun p => (ExecEvent.tickEv (⟨1, 37/10, false, false, 3700⟩) (⟨Return.Running, ⟨1⟩⟩) [SeqEvent.tickE 0] :: p.1, p.2))
      (execLoop scenBEL 62 (⟨[(⟨false, ⟨4, 0⟩⟩, ⟨true, ()⟩), (⟨true, ⟨4, 0⟩⟩, ⟨true, ()⟩)], 0, false⟩) (⟨1, 38/10, false, false, 3800⟩)) := by
  with_unfolding_all rfl

theorem c8e38 : execLoop scenBEL 62 (⟨[(⟨false, ⟨4, 0⟩⟩, ⟨true, ()⟩), (⟨true, ⟨4, 0⟩⟩, ⟨true, ()⟩)], 0, false⟩) (⟨1, 38/10, false, false, 3800⟩) =
    (fun p => (ExecEvent.tickEv (⟨1, 38/10, false, false, 3800⟩) (⟨Return.Running, ⟨1⟩⟩) [SeqEvent.tickE 0] :: p.1, p.2))
      (execLoop scenBEL 61 (⟨[(⟨false, ⟨4, 0⟩⟩, ⟨true, ()⟩), (⟨true, ⟨4, 0⟩⟩, ⟨true, ()⟩)], 0, false⟩) (⟨1, 39/10, false, false, 3900⟩)) := by
  with_unfolding_all rfl

theorem c8e39 : execLoop scenBEL 61 (⟨[(⟨false, ⟨4, 0⟩⟩, ⟨true, ()⟩), (⟨true, ⟨4, 0⟩⟩, ⟨true, ()⟩)], 0, false⟩) (⟨1, 39/10, false, false, 3900⟩) =
    (fun p => (ExecEvent.tickEv (⟨1, 39/10, false, false, 3900⟩) (⟨Return.Running, ⟨1⟩⟩) [SeqEvent.tickE 0] :: p.1, p.2))
      (execLoop scenBEL 60 (⟨[(⟨false, ⟨4, 0⟩⟩, ⟨true, ()⟩), (⟨true, ⟨4, 0⟩⟩, ⟨true, ()⟩)], 0, false⟩) (⟨1, 40/10, false, false, 4000⟩)) := by
  with_unfolding_all rfl

theorem c8e40 : execLoop scenBEL 60 (⟨[(⟨false, ⟨4, 0⟩⟩, ⟨true, ()⟩), (⟨true, ⟨4, 0⟩⟩, ⟨true, ()⟩)], 0, false⟩) (⟨1, 40/10, false, false, 4000⟩) =
    (fun p => (ExecEvent.tickEv (⟨1, 40/10, false, false, 4000⟩) (⟨Return.Running, ⟨1⟩⟩) [SeqEvent.tickE 0, SeqEvent.finE 0] :: p.1, p.2))
      (execLoop scenBEL 59 (⟨[(⟨false, ⟨4, 0⟩⟩, ⟨true, ()⟩), (⟨true, ⟨4, 0⟩⟩, ⟨true, ()⟩)], 1, true⟩) (⟨1, 41/10, false, false, 4100⟩)) := by
  with_unfolding_all rfl

theorem c8e41 : execLoop scenBEL 59 (⟨[(⟨false, ⟨4, 0⟩⟩, ⟨true, ()⟩), (⟨true, ⟨4, 0⟩⟩, ⟨true, ()⟩)], 1, true⟩) (⟨1, 41/10, false, false, 4100⟩) =
    (fun p => (ExecEvent.tickEv (⟨1, 41/10, false, false, 4100⟩) (⟨Return.Running, ⟨0⟩⟩) [SeqEvent.initE 1, SeqEvent.tickE 1] :: p.1, p.2))
      (execLoop scenBEL 58 (⟨[(⟨false, ⟨4, 0⟩⟩, ⟨true, ()⟩), (⟨true, ⟨4, 0⟩⟩, ⟨false, ()⟩)], 1, false⟩) (⟨0, 41/10, false, false, 4200⟩)) := by
  with_unfolding_all rfl

theorem c8e42 : execLoop scenBEL 58 (⟨[(⟨false, ⟨4, 0⟩⟩, ⟨true, ()⟩), (⟨true, ⟨4, 0⟩⟩, ⟨false, ()⟩)], 1, false⟩) (⟨0, 41/10, false, false, 4200⟩) =
    ([ExecEvent.tickEv (⟨0, 41/10, false, false, 4200⟩) (⟨Return.Success, ⟨0⟩⟩) [SeqEvent.tickE 1, SeqEvent.finE 1], ExecEvent.finEv],
     some ((⟨[(⟨false, ⟨4, 0⟩⟩, ⟨true, ()⟩), (⟨true, ⟨4, 0⟩⟩, ⟨false, ()⟩)], 2, true⟩), (⟨0, 41/10, false, false, 4300⟩), (⟨Return.Success, ⟨0⟩⟩))) := by
  with_unfolding_all rfl

set_option maxHeartbeats 1000000 in
/-- Value of the list-backed run: the explicit trace, and the terminal
result after the loop. -/
theorem scenRunL_trace :
    scenRunL.1 = c8Trace ∧
    scenRunL.2.map (fun r => (r.2.1, r.2.2)) =
      some ((⟨0, 41/10, false, false, 4300⟩ : SenseInfo), (⟨Return.Success, ⟨0⟩⟩ : Outcome)) := by
  have hinit : (scenBEL.initFn scenSeq0L).1 =
      (⟨[(⟨true, ⟨4, 0⟩⟩, ⟨true, ()⟩), (⟨true, ⟨4, 0⟩⟩, ⟨true, ()⟩)], 0, true⟩ : SeqStateL ScenState) := rfl
  have hs : sense0 = ⟨0, 0, false, false, 0⟩ := rfl
  have h : scenRunL =
      (c8Trace, some ((⟨[(⟨false, ⟨4, 0⟩⟩, ⟨true, ()⟩), (⟨true, ⟨4, 0⟩⟩, ⟨false, ()⟩)], 2, true⟩), (⟨0, 41/10, false, false, 4300⟩ : SenseInfo),
        (⟨Return.Success, ⟨0⟩⟩ : Outcome))) := by
    simp only [scenRunL, execRun, hinit, hs]
    rw [c8e0, c8e1, c8e2, c8e3, c8e4, c8e5, c8e6, c8e7, c8e8, c8e9, c8e10, c8e11, c8e12, c8e13, c8e14, c8e15, c8e16, c8e17, c8e18, c8e19, c8e20, c8e21, c8e22, c8e23, c8e24, c8e25, c8e26, c8e27, c8e28, c8e29, c8e30, c8e31, c8e32, c8e33, c8e34, c8e35, c8e36, c8e37, c8e38, c8e39, c8e40, c8e41, c8e42]
    rfl
  rw [h]
  exact ⟨rfl, rfl⟩


/-- Agreement of the two runs: the embedded run of main.cpp and its
list-backed mirror produce the same trace and the same final sense and
outcome. -/
theorem scenRun_eq_L :
    scenRun.1 = scenRunL.1 ∧
    scenRun.2.map (fun r => (r.2.1, r.2.2)) = scenRunL.2.map (fun r => (r.2.1, r.2.2)) := by
  have h := execLoop_absL scenState0 scenChildren 100 scenSeq0L sense0
    (by simp [scenChildren, scenSeq0L])
  have habs : absL scenState0 scenSeq0L = (seqInit scenSeq0).1 := by
    simp only [absL, seqInit, scenSeq0, scenSeq0L]
    congr 1
    funext j
    match j with
    | 0 => rfl
    | 1 => rfl
    | n + 2 => rfl
  rw [habs] at h
  have hBE : scenBE = (⟨seqInit, fun st s => seqTick scenChildren st s, id⟩ :
      BElem (SeqState ScenState) SeqEvent) := rfl
  have hBEL : scenBEL = (⟨fun st => (⟨st.childStatesL, 0, true⟩, ⟨"Sequence"⟩),
      fun st s => seqTickL scenState0 scenChildren st s, id⟩ :
      BElem (SeqStateL ScenState) SeqEvent) := rfl
  rw [← hBE, ← hBEL] at h
  have hi1 : (scenBE.initFn scenSeq0).1 = (seqInit scenSeq0).1 := rfl
  have hi2 : (scenBEL.initFn scenSeq0L).1 = scenSeq0L := rfl
  simp only [scenRun, scenRunL, execRun, hi1, hi2]
  exact h

/-- The trace and terminal data of the embedded run of main.cpp. -/
theorem scenRun_trace :
    scenRun.1 = c8Trace ∧
    scenRun.2.map (fun r => (r.2.1, r.2.2)) =
      some (⟨0, 41/10, false, false, 4300⟩, ⟨Return.Success, ⟨0⟩⟩) := by
  refine ⟨?_, ?_⟩
  · rw [scenRun_eq_L.1, scenRunL_trace.1]
  · rw [scenRun_eq_L.2, scenRunL_trace.2]





/-- C8 counterexample: in the exact-arithmetic embedding of main.cpp's run
(Sequence([WalkToPosition(goal=4), Stop]) driven by the executor from
measured_x = 0), tick index 41 — the tick right after the walk element
succeeded — has |4 − measured_x| = |4 − 4.1| = 0.1 ≥ 0.1 and elapsed time
4.1 s < 60 s, yet the sequence's outcome on that tick is Running with
actuate.velocity 0 (Stop's command), not +1.0.  So the claim's clause
"every tick with |4.0 − measured_x| ≥ 0.1 and elapsed time < 60 s yields
Running with actuate.velocity = +1.0", read over the whole run, is
false. -/
theorem scenario_walk_stop_counterexample :
    scenRun.1 = c8Trace ∧
    (tickSenses c8Trace).getD 41 sense0 = ⟨1, 41 / 10, false, false, 4100⟩ ∧
    (1 : ℚ) / 10 ≤ |4 - ((tickSenses c8Trace).getD 41 sense0).measured_x| ∧
    ((tickSenses c8Trace).getD 41 sense0).ts - sense0.ts < 60000 ∧
    (tickOuts c8Trace).getD 41 Outcome.default0 = ⟨Return.Running, ⟨0⟩⟩ ∧
    ((tickOuts c8Trace).getD 41 Outcome.default0).actuate.velocity ≠ 1 := by
  refine ⟨scenRun_trace.1, ?_, ?_, ?_, ?_, ?_⟩
  · simp [c8Trace, tickSenses, List.getD]
  · simp [c8Trace, tickSenses, List.getD, le_abs]
    norm_num
  · simp [c8Trace, tickSenses, List.getD, sense0]
  · simp [c8Trace, tickOuts, List.getD]
  · simp [c8Trace, tickOuts, List.getD]

/-- C8 (amended: the clause "every tick with |4.0 − measured_x| ≥ 0.1 and
elapsed < 60 s yields Running with actuate.velocity = +1.0" holds for the
ticks on which the walk element is the one ticked — up to and including
its success tick — not for every tick of the run): the embedded run of
Sequence([WalkToPosition(goal=4.0), Stop]) from measured_x = 0,
measured_velocity = 0 with reflex flags false takes 43 ticks; ticks 0-39
have |4 − measured_x| ≥ 0.1 and elapsed < 60 s and yield Running with
actuate.velocity = 1; tick 40 is the first with |4 − measured_x| < 0.1
(measured_x = 4) and on it the walk element reports Success (it is ticked
and finalized, and the sequence masks the Success as Running with the
walk's actuate command, velocity 1); Stop is initialized and ticked on
tick 41, yielding Running with actuate.velocity = 0 because
|measured_velocity| = 1 exceeds machine epsilon; on tick 42
|measured_velocity| = 0 is within machine epsilon and Stop — hence the
sequence — reports Success; the run's final Outcome is Success with
actuate velocity 0. -/
theorem scenario_walk_stop_amended :
    scenRun.1 = c8Trace ∧
    scenRun.2.map (fun r => (r.2.1, r.2.2)) =
      some (⟨0, 41 / 10, false, false, 4300⟩, ⟨Return.Success, ⟨0⟩⟩) ∧
    (tickOuts c8Trace).length = 43 ∧
    tickOuts c8Trace =
      List.replicate 41 ⟨Return.Running, ⟨1⟩⟩ ++
        [⟨Return.Running, ⟨0⟩⟩, ⟨Return.Success, ⟨0⟩⟩] ∧
    (∀ s ∈ (tickSenses c8Trace).take 40,
      (1 : ℚ) / 10 ≤ |4 - s.measured_x| ∧ s.ts - sense0.ts < 60000) ∧
    ((tickSenses c8Trace).getD 40 sense0).measured_x = 4 ∧
    |4 - ((tickSenses c8Trace).getD 40 sense0).measured_x| < 1 / 10 ∧
    (tickEvts c8Trace).getD 40 [] = [SeqEvent.tickE 0, SeqEvent.finE 0] ∧
    (tickEvts c8Trace).getD 41 [] = [SeqEvent.initE 1, SeqEvent.tickE 1] ∧
    ¬ EPS ≥ |((tickSenses c8Trace).getD 41 sense0).measured_velocity| ∧
    EPS ≥ |((tickSenses c8Trace).getD 42 sense0).measured_velocity| ∧
    (tickEvts c8Trace).getD 42 [] = [SeqEvent.tickE 1, SeqEvent.finE 1] := by
  refine ⟨scenRun_trace.1, scenRun_trace.2, ?_, ?_, ?_, ?_, ?_, ?_, ?_, ?_, ?_, ?_⟩
  · simp [c8Trace, tickOuts]
  · simp [c8Trace, tickOuts, List.replicate]
  · simp [c8Trace, tickSenses, sense0, le_abs]
    norm_num
  · simp [c8Trace, tickSenses, List.getD]
    norm_num
  · simp [c8Trace, tickSenses, List.getD]
    norm_num
  · simp [c8Trace, tickEvts, List.getD]
  · simp [c8Trace, tickEvts, List.getD]
  · simp [c8Trace, tickSenses, List.getD, EPS]
    norm_num
  · simp [c8Trace, tickSenses, List.getD, EPS]
  · simp [c8Trace, tickEvts, List.getD]

end Behavior
